import Mathlib

/-! The cileserver client: wire protocol and request/response session.

A shallow embedding of `src/client.c`.  Bytes are natural numbers, C strings
are byte lists read up to their first NUL, and the process environment (the
connected socket, the local files, the two output streams) is an explicit
`World` value threaded through every function.  A run that a signal can end
before it returns (`main`, the directory listing) yields a `Run` value.
-/

namespace Cileserver

/-! ## Constants -/

/-- Transfer buffer capacity, `#define BUFFER_SIZE 4096`. -/
def BUFFER_SIZE : Nat := 4096

/-- Default port, `#define DEFAULT_PORT 9090`. -/
def DEFAULT_PORT : Int := 9090

/-- Default host, `#define DEFAULT_HOST "localhost"`. -/
def DEFAULT_HOST : List Nat := [108, 111, 99, 97, 108, 104, 111, 115, 116]

/-- Modelled from the spec: `CMD_LIST` of the absent `include/protocol.h`
(section 6, `LIST=1`). -/
def CMD_LIST : Nat := 1

/-- Modelled from the spec: `CMD_GET` of the absent `include/protocol.h`
(section 6, `GET=2`). -/
def CMD_GET : Nat := 2

/-- Modelled from the spec: `CMD_PUT` of the absent `include/protocol.h`
(section 6, `PUT=3`). -/
def CMD_PUT : Nat := 3

/-- Modelled from the spec: `CMD_DELETE` of the absent `include/protocol.h`
(section 6, `DELETE=4`). -/
def CMD_DELETE : Nat := 4

/-- Modelled from the spec: `CMD_MKDIR` of the absent `include/protocol.h`
(section 6, `MKDIR=5`). -/
def CMD_MKDIR : Nat := 5

/-- Modelled from the spec: `RESP_OK` of the absent `include/protocol.h`
(section 6, `OK=0`). -/
def RESP_OK : Nat := 0

/-- Size of the packed `message_header_t`: 1 + 2 + 4 bytes. -/
def sizeof_message_header : Nat := 7

/-- Size of the packed `response_header_t`: 1 + 4 bytes. -/
def sizeof_response_header : Nat := 5

/-! ## C strings and byte order -/

/-- The characters of a C string: the bytes before the first NUL. -/
def cstr (s : List Nat) : List Nat := s.takeWhile (fun b => b != 0)

/-- C `strlen`. -/
def strlen (s : List Nat) : Nat := (cstr s).length

/-- C `strcmp(a, b) == 0`. -/
def streq (a b : List Nat) : Bool := cstr a == cstr b

/-- Wire bytes of `htons (x)`: the low 16 bits of `x`, most significant byte
first. -/
def htons (x : Nat) : List Nat := [(x % 65536) / 256, x % 256]

/-- Wire bytes of `htonl (x)`: the low 32 bits of `x`, most significant byte
first. -/
def htonl (x : Nat) : List Nat :=
  [(x % 4294967296) / 16777216, (x / 65536) % 256, (x / 256) % 256, x % 256]

/-- Value of `ntohl` applied to four wire bytes. -/
def ntohl (b3 b2 b1 b0 : Nat) : Nat :=
  (b3 % 256) * 16777216 + (b2 % 256) * 65536 + (b1 % 256) * 256 + b0 % 256

/-! ## Environment -/

/-- Lines the client prints on standard error. -/
inductive Diag where
  /-- Call `perror("Error creating socket")`. -/
  | errSocket
  /-- Line `Error: no such host`. -/
  | noSuchHost
  /-- Call `perror("Error connecting to server")`. -/
  | errConnect
  /-- Call `perror("Error sending request header")`. -/
  | errSendHeader
  /-- Call `perror("Error sending path")`. -/
  | errSendPath
  /-- Call `perror("Error sending data")`. -/
  | errSendData
  /-- Call `perror("Error receiving response header")`. -/
  | errRecvHeader
  /-- Line `Server returned error`. -/
  | serverError
  /-- Call `perror("Error receiving error message")`. -/
  | errRecvErrMsg
  /-- Line `Error message: %s`. -/
  | errorMessage (text : List Nat)
  /-- Line `Response too large for buffer`. -/
  | responseTooLarge
  /-- Call `perror("Error receiving response data")`. -/
  | errRecvData
  /-- Line `Error: Cannot write to a directory path. Please specify a file path.`. -/
  | pathIsDirectory
  /-- Call `perror("Error opening local file")`. -/
  | errOpenLocal
  /-- Line `File too large for buffer`. -/
  | fileTooLarge
  /-- Call `perror("Error reading local file")`. -/
  | errReadLocal
  /-- Call `perror("Error writing to local file")`. -/
  | errWriteLocal
  /-- Line `Error: get command requires REMOTE_PATH and LOCAL_PATH`. -/
  | getRequires
  /-- Line `Error: put command requires REMOTE_PATH and LOCAL_PATH`. -/
  | putRequires
  /-- Line `Error: delete command requires PATH`. -/
  | deleteRequires
  /-- Line `Error: mkdir command requires PATH`. -/
  | mkdirRequires
  /-- Line `Error: unknown command: %s`. -/
  | unknownCommand (cmd : List Nat)
  deriving DecidableEq

/-- Lines the client prints on standard output. -/
inductive Out where
  /-- Line `Listing directory: %s`. -/
  | listing (path : List Nat)
  /-- Line `Directory contents (%d entries):` and the two table header lines. -/
  | dirContents (num_entries : Nat)
  /-- One table row, printed from the record `entries[i]` (its raw bytes) -/
  | entry (record : List Nat)
  /-- Line `Getting file: %s -> %s`. -/
  | getting (path local_path : List Nat)
  /-- Line `File downloaded successfully (%zu bytes)`. -/
  | downloaded (data_size : Nat)
  /-- Line `Putting file: %s -> %s`. -/
  | putting (local_path path : List Nat)
  /-- Line `Deleting: %s`. -/
  | deleting (path : List Nat)
  /-- Line `Creating directory: %s`. -/
  | creating (path : List Nat)
  /-- Confirmation text printed by `printf("%s\n", buffer)`. -/
  | message (text : List Nat)
  /-- Output of `print_usage` -/
  | usage (program_name : Option (List Nat))
  deriving DecidableEq

/-- Everything outside the program that `client.c` reads or changes. -/
structure World where
  /-- Whether `socket()` succeeds. -/
  sockOk : Bool
  /-- Whether `gethostbyname()` finds the host. -/
  hostOk : Bool
  /-- Whether `connect()` succeeds. -/
  connOk : Bool
  /-- host and port of the established connection, if any -/
  peer : Option (List Nat × Nat)
  /-- bytes the peer will still deliver on the connection -/
  inp : List Nat
  /-- bytes written to the connection so far -/
  out : List Nat
  /-- number of bytes the connection still accepts -/
  wcap : Nat
  /-- Whether a write the connection refuses outright is refused with `EPIPE`
  (the peer has closed), which raises `SIGPIPE`, left at its default action by
  `client.c`; otherwise it fails with another error such as `ECONNRESET`. -/
  epipe : Bool
  /-- sizes of the `write` calls the connection has refused outright so far -/
  refused : List Nat
  /-- sizes requested by the `read` calls made so far -/
  reads : List Nat
  /-- local files: name and contents -/
  files : List (List Nat × List Nat)
  /-- local names that cannot be opened for writing -/
  locked : List (List Nat)
  /-- number of bytes local storage still accepts -/
  quota : Nat
  /-- names passed to the `fopen` calls made so far -/
  fopens : List (List Nat)
  /-- indices at which a NUL terminator was stored into a transfer buffer -/
  nulStores : List Nat
  /-- the connection was closed with `close` -/
  closed : Bool
  stdout : List Out
  stderr : List Diag
  deriving DecidableEq

/-- Print on standard error: `fprintf(stderr, ...)` and `perror`. -/
def World.err (w : World) (d : Diag) : World := { w with stderr := w.stderr ++ [d] }

/-- Print on standard output: `printf`. -/
def World.print (w : World) (o : Out) : World := { w with stdout := w.stdout ++ [o] }

/-- Call `write(sock_fd, bytes, bytes.length)`: the connection takes as many bytes
as it still accepts; a non-empty write on a connection that accepts nothing
fails with -1 and is logged in `refused`.  Where such a write raises `SIGPIPE`
(see `World.epipe`) the process ends in it; `sigpipe_since` tells, and `main`
ends accordingly. -/
def sock_write (w : World) (bytes : List Nat) : Int × World :=
  let k := min bytes.length w.wcap
  if 0 < bytes.length ∧ k = 0 then (-1, { w with refused := w.refused ++ [bytes.length] })
  else ((k : Int), { w with out := w.out ++ bytes.take k, wcap := w.wcap - k })

/-- Call `read(sock_fd, buffer, n)`: delivers the next `n` bytes of the stream, or
all that are left when the peer has closed before that. -/
def sock_read (w : World) (n : Nat) : Int × List Nat × World :=
  let got := w.inp.take n
  ((got.length : Int), got, { w with inp := w.inp.drop n, reads := w.reads ++ [n] })

/-! ## `send_request` and `receive_response` -/

/-- The packed `message_header_t` that `send_request` prepares: `command`,
`htons(path_len)`, `htonl(data_size)`, seven bytes in this order. -/
def request_header (command : Nat) (path_len : Nat) (data_size : Nat) : List Nat :=
  [command % 256] ++ htons path_len ++ htonl data_size

/-- Function `send_request(sock_fd, command, path, data, data_size)`.  `data` is `none`
for a `NULL` pointer; otherwise the first `data_size` bytes are the payload. -/
def send_request (w : World) (command : Nat) (path : List Nat)
    (data : Option (List Nat)) (data_size : Nat) : Int × World :=
  let path_len := strlen path
  let header := request_header command path_len data_size
  let (n, w) := sock_write w header
  if n ≠ (sizeof_message_header : Int) then (-1, w.err Diag.errSendHeader)
  else
    let (bytes_written, w) := sock_write w (cstr path)
    if bytes_written < 0 ∨ bytes_written ≠ (path_len : Int) then (-1, w.err Diag.errSendPath)
    else
      match data with
      | some d =>
        if 0 < data_size then
          let (bytes_written, w) := sock_write w (d.take data_size)
          if bytes_written < 0 ∨ bytes_written ≠ (data_size : Int) then
            (-1, w.err Diag.errSendData)
          else (0, w)
        else (0, w)
      | none => (0, w)

/-- What `receive_response` leaves behind: the return value, the filled part of
`buffer`, `*data_size`, and the environment. -/
structure Received where
  rc : Int
  buffer : List Nat
  data_size : Nat
  world : World
  deriving DecidableEq

/-- Function `receive_response(sock_fd, buffer, buffer_size, &data_size)`. -/
def receive_response (w : World) (buffer_size : Nat) : Received :=
  let (n, hdr, w) := sock_read w sizeof_response_header
  if n ≠ (sizeof_response_header : Int) then ⟨-1, [], 0, w.err Diag.errRecvHeader⟩
  else
    let status := hdr.getD 0 0
    let data_size := ntohl (hdr.getD 1 0) (hdr.getD 2 0) (hdr.getD 3 0) (hdr.getD 4 0)
    if status ≠ RESP_OK then
      let w := w.err Diag.serverError
      if 0 < data_size ∧ data_size < buffer_size then
        let (bytes_read, buf, w) := sock_read w data_size
        if bytes_read < 0 ∨ bytes_read ≠ (data_size : Int) then
          ⟨-1, buf, data_size, w.err Diag.errRecvErrMsg⟩
        else
          let w := { w with nulStores := w.nulStores ++ [data_size] }
          ⟨-1, buf, data_size, w.err (Diag.errorMessage (cstr buf))⟩
      else ⟨-1, [], data_size, w⟩
    else if 0 < data_size then
      if data_size > buffer_size then
        ⟨-1, [], data_size, w.err Diag.responseTooLarge⟩
      else
        let (bytes_read, buf, w) := sock_read w data_size
        if bytes_read < 0 ∨ bytes_read ≠ (data_size : Int) then
          ⟨-1, buf, data_size, w.err Diag.errRecvData⟩
        else ⟨0, buf, data_size, w⟩
    else ⟨0, [], data_size, w⟩

/-! ## Local files -/

/-- Call `fopen(name, "rb")`: the contents of the named file when it exists. -/
def fopen_rb (w : World) (name : List Nat) : Option (List Nat) × World :=
  (w.files.lookup (cstr name), { w with fopens := w.fopens ++ [cstr name] })

/-- Call `fopen(name, "wb")`: creates the file, or truncates it, unless the name
cannot be opened for writing. -/
def fopen_wb (w : World) (name : List Nat) : Bool × World :=
  let w := { w with fopens := w.fopens ++ [cstr name] }
  if cstr name ∈ w.locked then (false, w)
  else (true, { w with files := (cstr name, []) :: w.files.filter (fun f => f.1 != cstr name) })

/-- Call `fwrite(bytes, 1, bytes.length, file)` on the open file `name`: appends
as many bytes as local storage still accepts and returns their number. -/
def fwrite (w : World) (name : List Nat) (bytes : List Nat) : Nat × World :=
  let k := min bytes.length w.quota
  (k, { w with
          files := w.files.map (fun f => if f.1 = cstr name then (f.1, f.2 ++ bytes.take k) else f),
          quota := w.quota - k })

/-! ## Signals -/

/-- The signals that end the client: `client.c` installs no handler. -/
inductive Signal where
  /-- Raised by a `write` on a connection the peer has closed. -/
  | SIGPIPE
  /-- Raised by the access through a null pointer. -/
  | SIGSEGV
  deriving DecidableEq

/-- How a run of code ends: it returns a value, or a signal ends the process
before that. -/
inductive Run (α : Type) where
  /-- The code returns `a`. -/
  | returned (a : α)
  /-- The process is ended by `sig`; nothing after that point happens. -/
  | killed (sig : Signal)

/-- The value a run returns, if it returns. -/
def Run.result {α : Type} : Run α → Option α
  | Run.returned a => some a
  | Run.killed _ => none

/-- Whether a write between the environments `before` and `after` of one
process has raised `SIGPIPE`: it was refused outright on a connection that
refuses with `EPIPE`. -/
def sigpipe_since (before after : World) : Bool :=
  before.epipe && after.refused != before.refused

/-- The end of a function run from `before` to `after` by the code of the
functions above, which read a refused write as a plain -1: the process has
ended in such a write when it raised `SIGPIPE`. -/
def unless_sigpipe (before after : World) : Run World :=
  if sigpipe_since before after then Run.killed Signal.SIGPIPE else Run.returned after

/-! ## Directory entries -/

/-- Modelled from the spec: what the absent `include/file_ops.h` and the host
fix about the directory entry `file_info_t` (section 3: a fixed-size record of
name, size, directory flag and modified time): its size, and for a record
whether `localtime` accepts its `modified_time`; `localtime` returns `NULL`
for a time whose year does not fit `int`. -/
structure RecordFormat where
  /-- The value of `sizeof(file_info_t)`. -/
  record_size : Nat
  /-- Whether `localtime(&entry.modified_time)` returns a result. -/
  time_ok : List Nat → Bool

/-- Value of a two's-complement integer stored least significant byte first. -/
def le_signed (bytes : List Nat) : Int :=
  let u : Int := bytes.foldr (fun b acc => ((b % 256 : Nat) : Int) + 256 * acc) 0
  if u < 2 ^ (8 * bytes.length - 1) then u else u - 2 ^ (8 * bytes.length)

/-- Whether `localtime` returns a result in the time zone UTC: the year, from
-2147481748 to 2147485547, must fit `tm_year`. -/
def localtime_ok (t : Int) : Bool :=
  decide (-67768040609740800 ≤ t ∧ t ≤ 67768036191676799)

/-- Modelled from the spec: a `file_info_t` of 280 bytes on a little-endian host
with a 64-bit `time_t`, read in the time zone UTC: the 256-byte name, the
8-byte size, the directory flag padded to 8 bytes, and the 8-byte modified
time at offset 272 (section 6 leaves the widths to the implementation). -/
def file_info_280 : RecordFormat :=
  { record_size := 280,
    time_ok := fun record => localtime_ok (le_signed ((record.drop 272).take 8)) }

/-! ## Client commands -/

/-- Function `connect_to_server(host, port)`; the descriptor of the connected
socket is 3, the first one free after the standard streams. -/
def connect_to_server (w : World) (host : List Nat) (port : Int) : Int × World :=
  if !w.sockOk then (-1, w.err Diag.errSocket)
  else if !w.hostOk then (-1, w.err Diag.noSuchHost)
  else if !w.connOk then (-1, w.err Diag.errConnect)
  else (3, { w with peer := some (cstr host, (port % 65536).toNat) })

/-- The record `entries[i]` of a listing held in `buffer`, for a record size of
`record_size` bytes. -/
def entry_at (record_size : Nat) (buffer : List Nat) (i : Nat) : List Nat :=
  (buffer.drop (i * record_size)).take record_size

/-- The row loop of `client_list_directory` over the indices `rows`: each row
is formatted through `localtime` and `strftime`, and `strftime` on the `NULL`
that `localtime` returns for a time out of range ends the process. -/
def print_rows (fmt : RecordFormat) (buffer : List Nat) : List Nat → World → Run World
  | [], w => Run.returned w
  | i :: rows, w =>
    if fmt.time_ok (entry_at fmt.record_size buffer i) then
      print_rows fmt buffer rows (w.print (Out.entry (entry_at fmt.record_size buffer i)))
    else Run.killed Signal.SIGSEGV

/-- Function `client_list_directory(sock_fd, path)`, for the record format
`fmt`. -/
def client_list_directory (fmt : RecordFormat) (w0 : World) (path : List Nat) : Run World :=
  let w := w0.print (Out.listing (cstr path))
  let (rc, w) := send_request w CMD_LIST path none 0
  if rc ≠ 0 then unless_sigpipe w0 w
  else
    let r := receive_response w BUFFER_SIZE
    if r.rc ≠ 0 then Run.returned r.world
    else
      let num_entries := r.data_size / fmt.record_size
      let w := r.world.print (Out.dirContents num_entries)
      print_rows fmt r.buffer (List.range num_entries) w

/-- Function `client_get_file(sock_fd, path, local_path)`. -/
def client_get_file (w : World) (path local_path : List Nat) : World :=
  let w := w.print (Out.getting (cstr path) (cstr local_path))
  let (rc, w) := send_request w CMD_GET path none 0
  if rc ≠ 0 then w
  else
    let r := receive_response w BUFFER_SIZE
    if r.rc ≠ 0 then r.world
    else
      match fopen_wb r.world local_path with
      | (false, w) => w.err Diag.errOpenLocal
      | (true, w) =>
        let (written, w) := fwrite w local_path (r.buffer.take r.data_size)
        if written ≠ r.data_size then w.err Diag.errWriteLocal
        else w.print (Out.downloaded r.data_size)

/-- Function `client_put_file(sock_fd, path, local_path)`. -/
def client_put_file (w : World) (path local_path : List Nat) : World :=
  let path_len := strlen path
  if path_len > 0 ∧ path.getD (path_len - 1) 0 = 47 then w.err Diag.pathIsDirectory
  else
    let w := w.print (Out.putting (cstr local_path) (cstr path))
    match fopen_rb w local_path with
    | (none, w) => w.err Diag.errOpenLocal
    | (some contents, w) =>
      let file_size : Int := contents.length
      if file_size > (BUFFER_SIZE : Int) then w.err Diag.fileTooLarge
      else
        let buffer := contents.take file_size.toNat
        let bytes_read := buffer.length
        if bytes_read ≠ file_size.toNat then w.err Diag.errReadLocal
        else
          let (rc, w) := send_request w CMD_PUT path (some buffer) bytes_read
          if rc ≠ 0 then w
          else
            let r := receive_response w BUFFER_SIZE
            if r.rc ≠ 0 then r.world
            else
              let w := { r.world with nulStores := r.world.nulStores ++ [r.data_size] }
              w.print (Out.message (cstr r.buffer))

/-- Function `client_delete_file(sock_fd, path)`. -/
def client_delete_file (w : World) (path : List Nat) : World :=
  let w := w.print (Out.deleting (cstr path))
  let (rc, w) := send_request w CMD_DELETE path none 0
  if rc ≠ 0 then w
  else
    let r := receive_response w BUFFER_SIZE
    if r.rc ≠ 0 then r.world
    else
      let w := { r.world with nulStores := r.world.nulStores ++ [r.data_size] }
      w.print (Out.message (cstr r.buffer))

/-- Function `client_create_directory(sock_fd, path)`. -/
def client_create_directory (w : World) (path : List Nat) : World :=
  let w := w.print (Out.creating (cstr path))
  let (rc, w) := send_request w CMD_MKDIR path none 0
  if rc ≠ 0 then w
  else
    let r := receive_response w BUFFER_SIZE
    if r.rc ≠ 0 then r.world
    else
      let w := { r.world with nulStores := r.world.nulStores ++ [r.data_size] }
      w.print (Out.message (cstr r.buffer))

/-! ## Command line -/

/-- C `isspace` in the C locale. -/
def isspace (c : Nat) : Bool := c == 32 || (9 ≤ c && c ≤ 13)

/-- The digit loop of `strtol` in base 10. -/
def atoi_digits : List Nat → Int → Int
  | [], acc => acc
  | c :: cs, acc =>
    if 48 ≤ c ∧ c ≤ 57 then atoi_digits cs (acc * 10 + ((c : Int) - 48)) else acc

/-- C `strtol(s, NULL, 10)` with a 64-bit `long`: leading white space, an
optional sign, then decimal digits; a value out of range is `LONG_MIN` or
`LONG_MAX`. -/
def strtol (s : List Nat) : Int :=
  let v : Int :=
    match (cstr s).dropWhile isspace with
    | 45 :: cs => - atoi_digits cs 0
    | 43 :: cs => atoi_digits cs 0
    | cs => atoi_digits cs 0
  max (-9223372036854775808) (min 9223372036854775807 v)

/-- C `atoi` as in glibc: `(int) strtol(s, NULL, 10)`, the low 32 bits of the
`long` read as a two's-complement `int`. -/
def atoi (s : List Nat) : Int :=
  (strtol s + 2147483648) % 4294967296 - 2147483648

/-- The string `-h`. -/
def opt_h : List Nat := [45, 104]
/-- The string `--host`. -/
def opt_host : List Nat := [45, 45, 104, 111, 115, 116]
/-- The string `-p`. -/
def opt_p : List Nat := [45, 112]
/-- The string `--port`. -/
def opt_port : List Nat := [45, 45, 112, 111, 114, 116]
/-- The string `list`. -/
def word_list : List Nat := [108, 105, 115, 116]
/-- The string `get`. -/
def word_get : List Nat := [103, 101, 116]
/-- The string `put`. -/
def word_put : List Nat := [112, 117, 116]
/-- The string `delete`. -/
def word_delete : List Nat := [100, 101, 108, 101, 116, 101]
/-- The string `mkdir`. -/
def word_mkdir : List Nat := [109, 107, 100, 105, 114]
/-- The string `/`. -/
def root_path : List Nat := [47]

/-- The option loop of `main`, entered at index `i` with `rest` the arguments
from `argv[i]` on; returns the index at which the loop stops, the host and the
port. -/
def parse_options : List (List Nat) → Nat → List Nat → Int → Nat × List Nat × Int
  | [], i, host, port => (i, host, port)
  | a :: rest, i, host, port =>
    if streq a opt_h || streq a opt_host then
      match rest with
      | v :: rest2 => parse_options rest2 (i + 2) v port
      | [] => (i + 1, host, port)
    else if streq a opt_p || streq a opt_port then
      match rest with
      | v :: rest2 => parse_options rest2 (i + 2) host (atoi v)
      | [] => (i + 1, host, port)
    else (i, host, port)

/-- The command dispatch of `main`, for the command word `command` and the index
`i` of the argument after it. -/
def dispatch (fmt : RecordFormat) (w : World) (argv : List (List Nat))
    (command : List Nat) (i : Nat) : Run World :=
  let argc := argv.length
  if streq command word_list then
    if i < argc then client_list_directory fmt w (argv.getD i [])
    else client_list_directory fmt w root_path
  else if streq command word_get then
    if i + 1 < argc then
      unless_sigpipe w (client_get_file w (argv.getD i []) (argv.getD (i + 1) []))
    else Run.returned (w.err Diag.getRequires)
  else if streq command word_put then
    if i + 1 < argc then
      unless_sigpipe w (client_put_file w (argv.getD i []) (argv.getD (i + 1) []))
    else Run.returned (w.err Diag.putRequires)
  else if streq command word_delete then
    if i < argc then unless_sigpipe w (client_delete_file w (argv.getD i []))
    else Run.returned (w.err Diag.deleteRequires)
  else if streq command word_mkdir then
    if i < argc then unless_sigpipe w (client_create_directory w (argv.getD i []))
    else Run.returned (w.err Diag.mkdirRequires)
  else
    Run.returned ((w.err (Diag.unknownCommand (cstr command))).print (Out.usage argv.head?))

/-- Function `main(argc, argv)` of the client, with `argc = argv.length`, for the
record format `fmt`: it returns the exit code with the environment it leaves,
unless a signal ends the process in the command. -/
def main (fmt : RecordFormat) (w : World) (argv : List (List Nat)) : Run (Int × World) :=
  let argc := argv.length
  let (i, host, port) := parse_options (argv.drop 1) 1 DEFAULT_HOST DEFAULT_PORT
  if i ≥ argc then Run.returned (1, w.print (Out.usage argv.head?))
  else
    let (sock_fd, w) := connect_to_server w host port
    if sock_fd < 0 then Run.returned (1, w)
    else
      let command := argv.getD i []
      let i := i + 1
      match dispatch fmt w argv command i with
      | Run.killed sig => Run.killed sig
      | Run.returned w => Run.returned (0, { w with closed := true })

/-- A reachable server with an idle connection that accepts `wcap` bytes before
the peer closes it (further writes are refused with `EPIPE`) and will deliver
`inp`, local storage holding `files` with room for `quota` more bytes, and
nothing printed yet. -/
def World.start (inp : List Nat) (wcap : Nat) (files : List (List Nat × List Nat))
    (quota : Nat) : World :=
  { sockOk := true, hostOk := true, connOk := true, peer := none, inp := inp, out := [],
    wcap := wcap, epipe := true, refused := [], reads := [], files := files, locked := [],
    quota := quota, fopens := [], nulStores := [], closed := false, stdout := [],
    stderr := [] }

/-- The five wire bytes of a packed `response_header_t` as `receive_response`
decodes it: the status byte, then `data_length` in network byte order. -/
def response_header (status n : Nat) : List Nat :=
  [status, n / 16777216, n / 65536 % 256, n / 256 % 256, n % 256]

/-- The index at which the option loop of `main` stops: that of the command
word when there is one, `argc` or more otherwise. -/
def command_index (argv : List (List Nat)) : Nat :=
  (parse_options (argv.drop 1) 1 DEFAULT_HOST DEFAULT_PORT).1

/-- Whether an argument is one of the option flags `-h`, `--host`, `-p`,
`--port` tested by the option loop of `main`. -/
def is_option (a : List Nat) : Bool :=
  streq a opt_h || streq a opt_host || streq a opt_p || streq a opt_port

/-- The command word of an argument vector: `argv[i]` where the option loop of
`main` stops. -/
def command_word (argv : List (List Nat)) : List Nat :=
  argv.getD (command_index argv) []

/-- The `k`-th argument after the command word. -/
def argument (argv : List (List Nat)) (k : Nat) : List Nat :=
  argv.getD (command_index argv + 1 + k) []

/-- The number of arguments after the command word. -/
def argument_count (argv : List (List Nat)) : Nat :=
  argv.length - (command_index argv + 1)

/-- Whether a command word is one of the five that `main` knows. -/
def is_command (a : List Nat) : Bool :=
  streq a word_list || streq a word_get || streq a word_put || streq a word_delete ||
    streq a word_mkdir

/-- The exit code of a run of `main`, if `main` returns. -/
def exit_code (r : Run (Int × World)) : Option Int :=
  r.result.map (fun p => p.1)

/-- The payload bytes `send_request` writes after the path: the first
`data_size` bytes of `data`, nothing for a `NULL` pointer. -/
def request_body (data : Option (List Nat)) (data_size : Nat) : List Nat :=
  match data with
  | some d => d.take data_size
  | none => []

/-! ## Byte order and C strings -/

theorem ntohl_htonl (n : Nat) (h : n < 4294967296) :
    ntohl (n / 16777216) (n / 65536 % 256) (n / 256 % 256) (n % 256) = n := by
  unfold ntohl
  omega

theorem htonl_eq (n : Nat) (h : n < 4294967296) :
    htonl n = [n / 16777216, n / 65536 % 256, n / 256 % 256, n % 256] := by
  unfold htonl
  rw [Nat.mod_eq_of_lt h]

theorem htons_eq (n : Nat) (h : n ≤ 65535) : htons n = [n / 256, n % 256] := by
  unfold htons
  rw [Nat.mod_eq_of_lt (by omega)]

theorem zero_not_mem_cstr (s : List Nat) : 0 ∉ cstr s := by
  intro h
  have := List.mem_takeWhile_imp h
  simp at this

theorem cstr_eq_self (s : List Nat) (h : 0 ∉ s) : cstr s = s := by
  unfold cstr
  rw [List.takeWhile_eq_self_iff]
  intro x hx
  have : x ≠ 0 := fun e => h (e ▸ hx)
  simpa using this

/-! ## Socket writes -/

theorem sock_write_of_le (w : World) (bytes : List Nat) (h : bytes.length ≤ w.wcap) :
    sock_write w bytes =
      ((bytes.length : Int), { w with out := w.out ++ bytes, wcap := w.wcap - bytes.length }) := by
  unfold sock_write
  have hk : min bytes.length w.wcap = bytes.length := Nat.min_eq_left h
  simp only [hk]
  by_cases hb : 0 < bytes.length
  · rw [if_neg (by omega)]
    simp
  · rw [if_neg (by omega)]
    simp

theorem sock_write_of_gt (w : World) (bytes : List Nat) (h : w.wcap < bytes.length) :
    (sock_write w bytes).1 ≠ (bytes.length : Int) := by
  unfold sock_write
  have hk : min bytes.length w.wcap = w.wcap := Nat.min_eq_right (by omega)
  simp only [hk]
  split
  · simp
  · simp
    omega

theorem request_header_length (command path_len data_size : Nat) :
    (request_header command path_len data_size).length = 7 := by
  simp [request_header, htons, htonl]

theorem send_request_of_le (w : World) (command : Nat) (path : List Nat)
    (data : Option (List Nat)) (data_size : Nat)
    (hlen : ∀ d, data = some d → data_size ≤ d.length)
    (hw : 7 + strlen path + (request_body data data_size).length ≤ w.wcap) :
    send_request w command path data data_size =
      (0, { w with
              out := w.out ++ (request_header command (strlen path) data_size ++ cstr path ++
                request_body data data_size),
              wcap := w.wcap - (7 + strlen path + (request_body data data_size).length) }) := by
  have h7 := request_header_length command (strlen path) data_size
  have hp : (cstr path).length = strlen path := rfl
  unfold send_request
  simp only []
  rw [sock_write_of_le w _ (by omega)]
  simp only [h7, sizeof_message_header]
  rw [sock_write_of_le _ (cstr path) (by simp only [hp]; omega)]
  cases data with
  | none =>
    simp [request_body, hp, Nat.sub_sub]
  | some d =>
    have hd := hlen d rfl
    by_cases h0 : 0 < data_size
    · have hl : (d.take data_size).length = data_size := by simp; omega
      simp only [request_body] at hw ⊢
      rw [hl] at hw
      simp only [h0, if_true]
      rw [sock_write_of_le _ (d.take data_size) (by simp only [hl, hp]; omega)]
      have n1 : ¬ ((strlen path : Int) < 0) := by omega
      have n2 : ¬ ((data_size : Int) < 0) := by omega
      simp [hp, hl, Nat.sub_sub, Nat.add_assoc, n1, n2]
    · have : data_size = 0 := by omega
      subst this
      simp [request_body, hp, Nat.sub_sub]

theorem sock_write_snd_wcap (w : World) (bytes : List Nat) :
    (sock_write w bytes).1 = (bytes.length : Int) → bytes.length ≤ w.wcap := by
  intro h
  by_contra hc
  exact sock_write_of_gt w bytes (by omega) h

theorem send_request_of_gt (w : World) (command : Nat) (path : List Nat)
    (data : Option (List Nat)) (data_size : Nat)
    (hlen : ∀ d, data = some d → data_size ≤ d.length)
    (hw : w.wcap < 7 + strlen path + (request_body data data_size).length) :
    (send_request w command path data data_size).1 = -1 := by
  have h7 := request_header_length command (strlen path) data_size
  have hp : (cstr path).length = strlen path := rfl
  unfold send_request
  simp only []
  by_cases c1 : 7 ≤ w.wcap
  · rw [sock_write_of_le w _ (by omega)]
    simp only [h7, sizeof_message_header]
    by_cases c2 : strlen path ≤ w.wcap - 7
    · rw [sock_write_of_le _ (cstr path) (by simp only [hp]; omega)]
      have n1 : ¬ ((strlen path : Int) < 0) := by omega
      cases data with
      | none => simp [request_body] at hw; omega
      | some d =>
        have hd := hlen d rfl
        have hl : (d.take data_size).length = data_size := by simp; omega
        simp only [request_body, hl] at hw
        have h0 : 0 < data_size := by omega
        have hne := sock_write_of_gt
          { w with out := w.out ++ request_header command (strlen path) data_size ++ cstr path,
                   wcap := w.wcap - 7 - strlen path } (d.take data_size)
          (by simp only [hl]; omega)
        simp only [hl] at hne
        simp [hp, n1, h0]
        simp [hp] at hne
        simp [hne]
    · have hne := sock_write_of_gt
        { w with out := w.out ++ request_header command (strlen path) data_size,
                 wcap := w.wcap - 7 } (cstr path) (by simp only [hp]; omega)
      simp only [hp] at hne
      simp [hne]
  · have hne := sock_write_of_gt w (request_header command (strlen path) data_size) (by omega)
    simp only [h7, Nat.cast_ofNat] at hne
    simp only [sizeof_message_header, Nat.cast_ofNat, ne_eq]
    rw [if_pos hne]

/-! ## Request framing -/

theorem request_header_bytes (command path_len n : Nat) (hc : command < 256)
    (hp : path_len ≤ 65535) (hd : n < 4294967296) :
    request_header command path_len n =
      [command, path_len / 256, path_len % 256,
        n / 16777216, n / 65536 % 256, n / 256 % 256, n % 256] := by
  simp [request_header, htons_eq path_len hp, htonl_eq n hd, Nat.mod_eq_of_lt hc]

/-- C1: for a command byte, a path of at most 65535 characters and a payload
shorter than 2^32 bytes, `send_request` returns 0 exactly when the connection
takes all the bytes, and then what it has written is the command byte, the path
length as two big-endian bytes, the payload length as four big-endian bytes, the
path characters without a NUL, and the payload: a seven-byte header whose
length fields decode to the lengths of the path and of the payload.  A `NULL`
payload of size 0 is sent as the empty payload. -/
theorem send_request_frame (w : World) (command : Nat) (path payload : List Nat)
    (hc : command < 256) (hp : strlen path ≤ 65535) (hd : payload.length < 4294967296) :
    ((send_request w command path (some payload) payload.length).1 = 0 ↔
        7 + strlen path + payload.length ≤ w.wcap) ∧
    ((send_request w command path (some payload) payload.length).1 = 0 →
      (send_request w command path (some payload) payload.length).2.out =
        w.out ++
          [command, strlen path / 256, strlen path % 256,
            payload.length / 16777216, payload.length / 65536 % 256,
            payload.length / 256 % 256, payload.length % 256] ++
          cstr path ++ payload) ∧
    (strlen path / 256 < 256 ∧ strlen path / 256 * 256 + strlen path % 256 = strlen path) ∧
    (payload.length / 16777216 < 256 ∧
      payload.length / 16777216 * 16777216 + payload.length / 65536 % 256 * 65536 +
        payload.length / 256 % 256 * 256 + payload.length % 256 = payload.length) ∧
    (cstr path).length = strlen path ∧ 0 ∉ cstr path ∧
    send_request w command path none 0 = send_request w command path (some []) 0 := by
  have hb : request_body (some payload) payload.length = payload := by
    simp [request_body]
  have hlen : ∀ d, some payload = some d → payload.length ≤ d.length := by
    intro d h
    cases h
    exact Nat.le_refl _
  have hiff : (send_request w command path (some payload) payload.length).1 = 0 ↔
      7 + strlen path + payload.length ≤ w.wcap := by
    constructor
    · intro h
      by_contra hlt
      have := send_request_of_gt w command path (some payload) payload.length hlen
        (by rw [hb]; omega)
      rw [this] at h
      exact absurd h (by decide)
    · intro h
      rw [send_request_of_le w command path (some payload) payload.length hlen (by rw [hb]; omega)]
  refine ⟨hiff, ?_, ⟨by omega, by omega⟩, ⟨by omega, by omega⟩, rfl, zero_not_mem_cstr path,
    by simp [send_request]⟩
  intro h
  have hw := hiff.mp h
  rw [send_request_of_le w command path (some payload) payload.length hlen (by rw [hb]; omega)]
  simp [hb, request_header_bytes command (strlen path) payload.length hc hp hd]

/-- Witness for C1: a `PUT` of three bytes to `/a`. -/
theorem send_request_frame_witness :
    (send_request (World.start [] 100 [] 0) 3 [47, 97] (some [1, 2, 3]) 3).1 = 0 ∧
    (send_request (World.start [] 100 [] 0) 3 [47, 97] (some [1, 2, 3]) 3).2.out =
      [3, 0, 2, 0, 0, 0, 3, 47, 97, 1, 2, 3] := by
  have h := send_request_frame (World.start [] 100 [] 0) 3 [47, 97] [1, 2, 3]
    (by decide) (by decide) (by decide)
  have h0 : (send_request (World.start [] 100 [] 0) 3 [47, 97] (some [1, 2, 3]) 3).1 = 0 :=
    h.1.mpr (by decide)
  exact ⟨h0, h.2.1 h0⟩

/-! ## Response reception -/

theorem receive_response_ok (w : World) (n bs : Nat) (tail : List Nat)
    (hn : n < 4294967296) (hinp : w.inp = response_header RESP_OK n ++ tail)
    (hle : n ≤ bs) (hsup : n ≤ tail.length) :
    receive_response w bs =
      ⟨0, tail.take n, n,
        { w with inp := tail.drop n,
                 reads := w.reads ++ (if 0 < n then [5, n] else [5]) }⟩ := by
  unfold receive_response sock_read
  simp only [hinp, sizeof_response_header, response_header]
  by_cases h0 : 0 < n
  · have n1 : ¬ (bs < n) := by omega
    have n2 : min n tail.length = n := Nat.min_eq_left hsup
    simp [ntohl_htonl n hn, h0, n1, n2, RESP_OK]
  · have : n = 0 := by omega
    subst this
    simp [ntohl, RESP_OK]

theorem receive_response_short (w : World) (n bs : Nat) (tail : List Nat)
    (hn : n < 4294967296) (hinp : w.inp = response_header RESP_OK n ++ tail)
    (hle : n ≤ bs) (hsup : tail.length < n) :
    (receive_response w bs).rc = -1 := by
  unfold receive_response sock_read
  simp only [hinp, sizeof_response_header, response_header]
  have h0 : 0 < n := by omega
  have n1 : ¬ (bs < n) := by omega
  have n2 : min n tail.length = tail.length := Nat.min_eq_right (by omega)
  have n3 : ¬ (tail.length = n) := by omega
  simp [ntohl_htonl n hn, h0, n1, n2, n3, RESP_OK]

theorem receive_response_too_large (w : World) (n bs : Nat) (tail : List Nat)
    (hn : n < 4294967296) (hinp : w.inp = response_header RESP_OK n ++ tail)
    (hbig : bs < n) :
    receive_response w bs =
      ⟨-1, [], n, ({ w with inp := tail, reads := w.reads ++ [5] }).err Diag.responseTooLarge⟩ := by
  unfold receive_response sock_read
  simp only [hinp, sizeof_response_header, response_header]
  have h0 : 0 < n := by omega
  simp [ntohl_htonl n hn, h0, hbig, RESP_OK]

theorem receive_response_error (w : World) (status n bs : Nat) (tail : List Nat)
    (hn : n < 4294967296) (hinp : w.inp = response_header status n ++ tail)
    (hs : status ≠ RESP_OK) :
    receive_response w bs =
      if 0 < n ∧ n < bs then
        if n ≤ tail.length then
          ⟨-1, tail.take n, n,
            ({ w with inp := tail.drop n, reads := w.reads ++ [5, n],
                      nulStores := w.nulStores ++ [n],
                      stderr := w.stderr ++ [Diag.serverError] }).err
              (Diag.errorMessage (cstr (tail.take n)))⟩
        else
          ⟨-1, tail.take n, n,
            ({ w with inp := tail.drop n, reads := w.reads ++ [5, n],
                      stderr := w.stderr ++ [Diag.serverError] }).err Diag.errRecvErrMsg⟩
      else
        ⟨-1, [], n, ({ w with inp := tail, reads := w.reads ++ [5] }).err Diag.serverError⟩ := by
  unfold receive_response sock_read
  simp only [hinp, sizeof_response_header, response_header]
  by_cases hc : 0 < n ∧ n < bs
  · by_cases hsup : n ≤ tail.length
    · have n2 : min n tail.length = n := Nat.min_eq_left hsup
      simp [ntohl_htonl n hn, hc, hsup, n2, hs, World.err]
    · have n2 : min n tail.length = tail.length := Nat.min_eq_right (by omega)
      have n3 : ¬ (tail.length = n) := by omega
      simp [ntohl_htonl n hn, hc, hsup, n2, n3, hs, World.err]
  · simp [ntohl_htonl n hn, hc, hs, World.err]

/-! ## What the two primitives leave untouched -/

theorem sock_write_preserves (w : World) (bytes : List Nat) :
    ∃ out wcap refused, (sock_write w bytes).2 =
      { w with out := out, wcap := wcap, refused := refused } := by
  unfold sock_write
  simp only []
  split
  · exact ⟨w.out, w.wcap, _, rfl⟩
  · exact ⟨_, _, w.refused, rfl⟩

theorem send_request_preserves (w : World) (command : Nat) (path : List Nat)
    (data : Option (List Nat)) (data_size : Nat) :
    ∃ out wcap refused ds, (send_request w command path data data_size).2 =
        { w with out := out, wcap := wcap, refused := refused, stderr := w.stderr ++ ds } ∧
      Diag.fileTooLarge ∉ ds := by
  unfold send_request
  simp only []
  obtain ⟨o1, c1, r1, h1⟩ := sock_write_preserves w
    (request_header command (strlen path) data_size)
  rw [h1]
  obtain ⟨o2, c2, r2, h2⟩ := sock_write_preserves
    { w with out := o1, wcap := c1, refused := r1 } (cstr path)
  rw [h2]
  split
  · exact ⟨o1, c1, r1, [Diag.errSendHeader], rfl, by simp⟩
  · split
    · exact ⟨o2, c2, r2, [Diag.errSendPath], rfl, by simp⟩
    · split
      · rename_i d
        obtain ⟨o3, c3, r3, h3⟩ := sock_write_preserves
          { w with out := o2, wcap := c2, refused := r2 } (d.take data_size)
        simp only [] at h3
        split
        · rw [h3]
          split
          · exact ⟨o3, c3, r3, [Diag.errSendData], rfl, by simp⟩
          · exact ⟨o3, c3, r3, [], by simp, by simp⟩
        · exact ⟨o2, c2, r2, [], by simp, by simp⟩
      · exact ⟨o2, c2, r2, [], by simp, by simp⟩

theorem receive_response_preserves (w : World) (bs : Nat) :
    (receive_response w bs).world =
      { w with inp := (receive_response w bs).world.inp,
               reads := (receive_response w bs).world.reads,
               nulStores := (receive_response w bs).world.nulStores,
               stderr := (receive_response w bs).world.stderr } := by
  unfold receive_response sock_read
  simp only [World.err]
  split
  · rfl
  · split
    · split
      · split <;> rfl
      · rfl
    · split
      · split
        · rfl
        · split <;> rfl
      · rfl

theorem receive_response_stderr (w : World) (bs : Nat) :
    ∃ ds, (receive_response w bs).world.stderr = w.stderr ++ ds ∧
      Diag.fileTooLarge ∉ ds := by
  unfold receive_response sock_read
  simp only [World.err]
  split
  · exact ⟨[Diag.errRecvHeader], rfl, by simp⟩
  · split
    · split
      · split
        · exact ⟨[Diag.serverError, Diag.errRecvErrMsg], List.append_assoc _ _ _, by simp⟩
        · exact ⟨[Diag.serverError, Diag.errorMessage _], List.append_assoc _ _ _, by simp⟩
      · exact ⟨[Diag.serverError], rfl, by simp⟩
    · split
      · split
        · exact ⟨[Diag.responseTooLarge], rfl, by simp⟩
        · split
          · exact ⟨[Diag.errRecvData], rfl, by simp⟩
          · exact ⟨[], (List.append_nil _).symm, by simp⟩
      · exact ⟨[], (List.append_nil _).symm, by simp⟩

theorem receive_response_error_rc (w : World) (status n bs : Nat) (tail : List Nat)
    (hn : n < 4294967296) (hinp : w.inp = response_header status n ++ tail)
    (hs : status ≠ RESP_OK) : (receive_response w bs).rc = -1 := by
  rw [receive_response_error w status n bs tail hn hinp hs]
  split
  · split <;> rfl
  · rfl

/-- C2: for an OK response whose declared length `n` is followed by `n` bytes
whenever `n` fits the buffer, `receive_response` with the 4096-byte buffer
returns 0 exactly when `n ≤ 4096`; it then hands back those `n` bytes unchanged
with `data_size = n` (so also for `n = 4096`); and for `n ≥ 4097` it returns -1
with the line "Response too large for buffer", having issued the header read
only and left every payload byte in the stream. -/
theorem receive_response_boundary (w : World) (n : Nat) (tail : List Nat)
    (hn : n < 4294967296) (hinp : w.inp = response_header RESP_OK n ++ tail)
    (hsup : n ≤ BUFFER_SIZE → n ≤ tail.length) :
    ((receive_response w BUFFER_SIZE).rc = 0 ↔ n ≤ 4096) ∧
    (n ≤ 4096 →
      (receive_response w BUFFER_SIZE).buffer = tail.take n ∧
      (receive_response w BUFFER_SIZE).data_size = n ∧
      (receive_response w BUFFER_SIZE).world.inp = tail.drop n) ∧
    (4097 ≤ n →
      (receive_response w BUFFER_SIZE).rc = -1 ∧
      (receive_response w BUFFER_SIZE).world.stderr = w.stderr ++ [Diag.responseTooLarge] ∧
      (receive_response w BUFFER_SIZE).world.reads = w.reads ++ [5] ∧
      (receive_response w BUFFER_SIZE).world.inp = tail) := by
  have hB : BUFFER_SIZE = 4096 := rfl
  refine ⟨?_, ?_, ?_⟩
  · constructor
    · intro h
      by_contra hgt
      rw [receive_response_too_large w n BUFFER_SIZE tail hn hinp (by omega)] at h
      simp at h
    · intro h
      rw [receive_response_ok w n BUFFER_SIZE tail hn hinp (by omega) (hsup (by omega))]
  · intro h
    rw [receive_response_ok w n BUFFER_SIZE tail hn hinp (by omega) (hsup (by omega))]
    exact ⟨rfl, rfl, rfl⟩
  · intro h
    rw [receive_response_too_large w n BUFFER_SIZE tail hn hinp (by omega)]
    exact ⟨rfl, rfl, rfl, rfl⟩

/-- Witness for C2: an OK response declaring exactly 4096 bytes, followed by
4096 bytes. -/
theorem receive_response_boundary_witness :
    (receive_response (World.start (response_header RESP_OK 4096 ++ List.replicate 4096 65)
        0 [] 0) BUFFER_SIZE).rc = 0 ∧
    (receive_response (World.start (response_header RESP_OK 4096 ++ List.replicate 4096 65)
        0 [] 0) BUFFER_SIZE).buffer = (List.replicate 4096 65).take 4096 := by
  have h := receive_response_boundary
    (World.start (response_header RESP_OK 4096 ++ List.replicate 4096 65) 0 [] 0)
    4096 (List.replicate 4096 65) (by decide) rfl
    (fun _ => le_of_eq (List.length_replicate 4096 65).symm)
  exact ⟨h.1.mpr (Nat.le_refl _), (h.2.1 (Nat.le_refl _)).1⟩

/-- C9: for a response whose status is not OK, `receive_response` returns -1,
and it issues the read of the `n` declared message bytes exactly when
`0 < n < buffer_size`; for `n = 0` or `n ≥ buffer_size` (so for `n = 4096` with
the 4096-byte buffer) the header read is the only read, no payload byte leaves
the stream and nothing but "Server returned error" is printed. -/
theorem receive_response_error_payload (w : World) (status n buffer_size : Nat)
    (tail : List Nat) (hn : n < 4294967296)
    (hinp : w.inp = response_header status n ++ tail) (hs : status ≠ RESP_OK) :
    (receive_response w buffer_size).rc = -1 ∧
    ((receive_response w buffer_size).world.reads = w.reads ++ [5, n] ↔
      0 < n ∧ n < buffer_size) ∧
    (0 < n ∧ n < buffer_size →
      (receive_response w buffer_size).world.inp = tail.drop n) ∧
    (¬ (0 < n ∧ n < buffer_size) →
      (receive_response w buffer_size).world.reads = w.reads ++ [5] ∧
      (receive_response w buffer_size).world.inp = tail ∧
      (receive_response w buffer_size).world.stderr = w.stderr ++ [Diag.serverError]) := by
  refine ⟨receive_response_error_rc w status n buffer_size tail hn hinp hs, ?_, ?_, ?_⟩
  · rw [receive_response_error w status n buffer_size tail hn hinp hs]
    constructor
    · intro h
      by_contra hc
      rw [if_neg hc] at h
      simp [World.err] at h
    · intro hc
      rw [if_pos hc]
      split <;> rfl
  · intro hc
    rw [receive_response_error w status n buffer_size tail hn hinp hs, if_pos hc]
    split <;> rfl
  · intro hc
    rw [receive_response_error w status n buffer_size tail hn hinp hs, if_neg hc]
    exact ⟨rfl, rfl, rfl⟩

/-- Witness for C9: an error response declaring exactly 4096 message bytes. -/
theorem receive_response_error_payload_witness :
    (receive_response (World.start (response_header 1 4096 ++ List.replicate 4096 65)
        0 [] 0) BUFFER_SIZE).world.inp = List.replicate 4096 65 := by
  have h := receive_response_error_payload
    (World.start (response_header 1 4096 ++ List.replicate 4096 65) 0 [] 0)
    1 4096 BUFFER_SIZE (List.replicate 4096 65) (by decide) rfl (by decide)
  exact (h.2.2.2 (by decide)).2.1

/-! ## Download -/

/-- C7: when the response has a status other than OK, whatever length it
declares and whatever follows, `receive_response` returns -1, and
`client_get_file` makes no `fopen` call and leaves every local file (and the
room left in local storage) as it was. -/
theorem get_file_error_response (w : World) (path local_path : List Nat)
    (status n : Nat) (tail : List Nat) (hn : n < 4294967296)
    (hinp : w.inp = response_header status n ++ tail) (hs : status ≠ RESP_OK) :
    (receive_response w BUFFER_SIZE).rc = -1 ∧
    (client_get_file w path local_path).fopens = w.fopens ∧
    (client_get_file w path local_path).files = w.files ∧
    (client_get_file w path local_path).quota = w.quota := by
  refine ⟨receive_response_error_rc w status n BUFFER_SIZE tail hn hinp hs, ?_⟩
  unfold client_get_file
  simp only []
  obtain ⟨o, c, rf, ds, hsr, -⟩ := send_request_preserves
    (w.print (Out.getting (cstr path) (cstr local_path))) CMD_GET path none 0
  generalize send_request (w.print (Out.getting (cstr path) (cstr local_path)))
    CMD_GET path none 0 = sr at hsr
  obtain ⟨rc, w1⟩ := sr
  simp only [] at hsr
  subst hsr
  simp only []
  split
  · exact ⟨rfl, rfl, rfl⟩
  · have hrc := receive_response_error_rc
      { w.print (Out.getting (cstr path) (cstr local_path)) with
        out := o, wcap := c, refused := rf,
        stderr := (w.print (Out.getting (cstr path) (cstr local_path))).stderr ++ ds }
      status n BUFFER_SIZE tail hn hinp hs
    rw [if_pos (by rw [hrc]; decide)]
    rw [receive_response_preserves]
    exact ⟨rfl, rfl, rfl⟩

/-- Witness for C7: a `GET` answered with status 1 and a five-byte message. -/
theorem get_file_error_response_witness :
    (client_get_file (World.start (response_header 1 5 ++ [101, 114, 114, 111, 114]) 100
        [] 100) [47, 109] [109]).fopens = [] ∧
    (client_get_file (World.start (response_header 1 5 ++ [101, 114, 114, 111, 114]) 100
        [] 100) [47, 109] [109]).files = [] :=
  have h := get_file_error_response
    (World.start (response_header 1 5 ++ [101, 114, 114, 111, 114]) 100 [] 100)
    [47, 109] [109] 1 5 [101, 114, 114, 111, 114] (by decide) rfl (by decide)
  ⟨h.2.1, h.2.2.1⟩

/-! ## Upload -/

theorem cstr_append_rest (s : List Nat) : cstr s ++ s.dropWhile (fun b => b != 0) = s := by
  unfold cstr
  exact List.takeWhile_append_dropWhile _ s

theorem last_char (path : List Nat) :
    (0 < strlen path ∧ path.getD (strlen path - 1) 0 = 47) ↔
      (cstr path).getLast? = some 47 := by
  have hpre := cstr_append_rest path
  have hlen : (cstr path).length = strlen path := rfl
  have hget : 0 < strlen path →
      path.getD (strlen path - 1) 0 = (cstr path).getD (strlen path - 1) 0 := by
    intro h0
    have e : path.getD (strlen path - 1) 0 =
        (cstr path ++ path.dropWhile (fun b => b != 0)).getD (strlen path - 1) 0 := by
      rw [hpre]
    rw [e, List.getD_append _ _ _ _ (by omega)]
  rw [List.getLast?_eq_getElem?, hlen]
  constructor
  · rintro ⟨h0, h⟩
    rw [hget h0, List.getD_eq_getElem?_getD] at h
    have hlt : strlen path - 1 < (cstr path).length := by omega
    rw [List.getElem?_eq_getElem hlt] at h ⊢
    simpa using h
  · intro h
    have h0 : 0 < strlen path := by
      by_contra hc
      have hz : (cstr path).length ≤ strlen path - 1 := by omega
      rw [List.getElem?_eq_none hz] at h
      exact absurd h (by simp)
    refine ⟨h0, ?_⟩
    rw [hget h0, List.getD_eq_getElem?_getD, h]
    rfl

/-- C3: when the characters of the remote path end in `/`, `client_put_file`
only prints "Error: Cannot write to a directory path. ..." on standard error:
nothing is written to the connection, nothing is read from it, no local file is
opened, whatever the local path names. -/
theorem put_file_directory_path (w : World) (path local_path : List Nat)
    (hdir : (cstr path).getLast? = some 47) :
    client_put_file w path local_path =
      { w with stderr := w.stderr ++ [Diag.pathIsDirectory] } ∧
    (client_put_file w path local_path).out = w.out ∧
    (client_put_file w path local_path).wcap = w.wcap ∧
    (client_put_file w path local_path).reads = w.reads ∧
    (client_put_file w path local_path).fopens = w.fopens := by
  have h := (last_char path).mpr hdir
  have he : client_put_file w path local_path =
      { w with stderr := w.stderr ++ [Diag.pathIsDirectory] } := by
    unfold client_put_file
    simp only []
    rw [if_pos h]
    rfl
  rw [he]
  exact ⟨rfl, rfl, rfl, rfl, rfl⟩

/-- Witness for C3: a `PUT` of an existing local file to `/dir/`. -/
theorem put_file_directory_path_witness :
    (client_put_file (World.start [] 100 [([102], [1, 2, 3])] 0)
      [47, 100, 105, 114, 47] [102]).out = [] :=
  (put_file_directory_path (World.start [] 100 [([102], [1, 2, 3])] 0)
    [47, 100, 105, 114, 47] [102] (by decide)).2.1

theorem put_file_too_large (w : World) (path local_path contents : List Nat)
    (hnot : (cstr path).getLast? ≠ some 47)
    (hfile : w.files.lookup (cstr local_path) = some contents)
    (hbig : 4096 < contents.length) :
    client_put_file w path local_path =
      { w with fopens := w.fopens ++ [cstr local_path],
               stdout := w.stdout ++ [Out.putting (cstr local_path) (cstr path)],
               stderr := w.stderr ++ [Diag.fileTooLarge] } := by
  unfold client_put_file
  simp only []
  rw [if_neg (mt (last_char path).mp hnot)]
  simp only [fopen_rb, World.print, hfile]
  have hb : (contents.length : Int) > (BUFFER_SIZE : Int) := by
    simp only [BUFFER_SIZE]; omega
  rw [if_pos hb]
  rfl

theorem put_file_fits (w : World) (path local_path contents : List Nat)
    (hnot : (cstr path).getLast? ≠ some 47)
    (hfile : w.files.lookup (cstr local_path) = some contents)
    (hfit : contents.length ≤ 4096) :
    client_put_file w path local_path =
      (let sr := send_request
          { w with fopens := w.fopens ++ [cstr local_path],
                   stdout := w.stdout ++ [Out.putting (cstr local_path) (cstr path)] }
          CMD_PUT path (some contents) contents.length
       if sr.1 ≠ 0 then sr.2
       else
         let r := receive_response sr.2 BUFFER_SIZE
         if r.rc ≠ 0 then r.world
         else
           ({ r.world with nulStores := r.world.nulStores ++ [r.data_size] }).print
             (Out.message (cstr r.buffer))) := by
  unfold client_put_file
  simp only []
  rw [if_neg (mt (last_char path).mp hnot)]
  simp only [fopen_rb, World.print, hfile]
  have hb : ¬ ((contents.length : Int) > (BUFFER_SIZE : Int)) := by
    simp only [BUFFER_SIZE]; omega
  rw [if_neg hb]
  simp

/-- C4: for a remote path whose characters do not end in `/` and a local file
that opens for reading, `client_put_file` prints "File too large for buffer"
and writes nothing to the connection exactly when the file is longer than 4096
bytes; a file of at most 4096 bytes (4096 included) is sent, on a connection
that takes the request, as one `PUT` frame: the command byte, the path length,
the file length as four big-endian bytes, the path and the whole file. -/
theorem put_file_size_limit (w : World) (path local_path contents : List Nat)
    (hnot : (cstr path).getLast? ≠ some 47)
    (hfile : w.files.lookup (cstr local_path) = some contents) :
    (((client_put_file w path local_path).stderr = w.stderr ++ [Diag.fileTooLarge] ∧
        (client_put_file w path local_path).out = w.out) ↔ 4096 < contents.length) ∧
    (contents.length ≤ 4096 → 7 + strlen path + contents.length ≤ w.wcap →
      (client_put_file w path local_path).out =
        w.out ++ ([CMD_PUT] ++ htons (strlen path) ++
          [contents.length / 16777216, contents.length / 65536 % 256,
            contents.length / 256 % 256, contents.length % 256] ++
          cstr path ++ contents)) := by
  have hlen : ∀ d, some contents = some d → contents.length ≤ d.length := by
    intro d h
    cases h
    exact Nat.le_refl _
  have hbody : request_body (some contents) contents.length = contents := by
    simp [request_body]
  constructor
  · constructor
    · rintro ⟨herr, -⟩
      by_contra hfit
      rw [put_file_fits w path local_path contents hnot hfile (by omega)] at herr
      simp only [] at herr
      obtain ⟨o, c, rf, ds, hsr, hds⟩ := send_request_preserves
        { w with fopens := w.fopens ++ [cstr local_path],
                 stdout := w.stdout ++ [Out.putting (cstr local_path) (cstr path)] }
        CMD_PUT path (some contents) contents.length
      obtain ⟨ds2, hrr, hds2⟩ := receive_response_stderr
        (send_request
          { w with fopens := w.fopens ++ [cstr local_path],
                   stdout := w.stdout ++ [Out.putting (cstr local_path) (cstr path)] }
          CMD_PUT path (some contents) contents.length).2 BUFFER_SIZE
      have hmem : ∀ ds3 : List Diag, w.stderr ++ ds3 = w.stderr ++ [Diag.fileTooLarge] →
          Diag.fileTooLarge ∈ ds3 := by
        intro ds3 h
        rw [List.append_cancel_left h]
        exact List.mem_singleton_self _
      split at herr
      · rw [hsr] at herr
        exact hds (hmem ds herr)
      · split at herr
        · rw [hrr, hsr] at herr
          simp only [List.append_assoc] at herr
          have := hmem _ herr
          rcases List.mem_append.mp this with h | h
          · exact hds h
          · exact hds2 h
        · simp only [World.print] at herr
          rw [hrr, hsr] at herr
          simp only [List.append_assoc] at herr
          have := hmem _ herr
          rcases List.mem_append.mp this with h | h
          · exact hds h
          · exact hds2 h
    · intro hbig
      rw [put_file_too_large w path local_path contents hnot hfile hbig]
      exact ⟨rfl, rfl⟩
  · intro hfit hw
    rw [put_file_fits w path local_path contents hnot hfile hfit]
    simp only []
    rw [send_request_of_le _ CMD_PUT path (some contents) contents.length hlen
      (by rw [hbody]; exact hw)]
    simp only [ne_eq, not_true_eq_false, if_false]
    have hout : ∀ v : World, (receive_response v BUFFER_SIZE).world.out = v.out := by
      intro v
      rw [receive_response_preserves]
    have hn : contents.length < 4294967296 := by omega
    split
    · rw [hout]
      simp [hbody, request_header, htonl_eq _ hn, CMD_PUT]
    · simp only [World.print]
      rw [hout]
      simp [hbody, request_header, htonl_eq _ hn, CMD_PUT]

/-- Witness for C4: a three-byte local file `f` uploaded to `/a`. -/
theorem put_file_size_limit_witness :
    (client_put_file (World.start (response_header RESP_OK 2 ++ [111, 107]) 100
        [([102], [1, 2, 3])] 0) [47, 97] [102]).out =
      [3, 0, 2, 0, 0, 0, 3, 47, 97, 1, 2, 3] :=
  (put_file_size_limit (World.start (response_header RESP_OK 2 ++ [111, 107]) 100
      [([102], [1, 2, 3])] 0) [47, 97] [102] [1, 2, 3] (by decide) (by decide)).2
    (by decide) (by decide)

/-! ## The terminator after a confirmation text -/

theorem request_body_none (data_size : Nat) : request_body none data_size = [] := rfl

theorem send_request_accepted (w : World) (command : Nat) (path : List Nat)
    (data : Option (List Nat)) (data_size : Nat)
    (hlen : ∀ d, data = some d → data_size ≤ d.length)
    (hw : 7 + strlen path + (request_body data data_size).length ≤ w.wcap) :
    ∃ v, send_request w command path data data_size = (0, v) ∧ v.inp = w.inp ∧
      v.nulStores = w.nulStores ∧ v.stdout = w.stdout ∧ v.stderr = w.stderr ∧
      v.refused = w.refused :=
  ⟨_, send_request_of_le w command path data data_size hlen hw, rfl, rfl, rfl, rfl, rfl⟩

theorem delete_file_accepted (w : World) (path : List Nat) (n : Nat) (tail : List Nat)
    (hw : 7 + strlen path ≤ w.wcap) (hinp : w.inp = response_header RESP_OK n ++ tail)
    (hle : n ≤ 4096) (hsup : n ≤ tail.length) :
    (client_delete_file w path).nulStores = w.nulStores ++ [n] := by
  unfold client_delete_file
  simp only []
  obtain ⟨v, hv, hi, hs, -⟩ := send_request_accepted (w.print (Out.deleting (cstr path)))
    CMD_DELETE path none 0 (by intro d h; cases h) (by rw [request_body_none]; exact hw)
  rw [hv]
  simp only [ne_eq, not_true_eq_false, if_false]
  rw [receive_response_ok v n BUFFER_SIZE tail (by omega) (hi.trans hinp) hle hsup]
  simp [World.print, hs]

theorem create_directory_accepted (w : World) (path : List Nat) (n : Nat) (tail : List Nat)
    (hw : 7 + strlen path ≤ w.wcap) (hinp : w.inp = response_header RESP_OK n ++ tail)
    (hle : n ≤ 4096) (hsup : n ≤ tail.length) :
    (client_create_directory w path).nulStores = w.nulStores ++ [n] := by
  unfold client_create_directory
  simp only []
  obtain ⟨v, hv, hi, hs, -⟩ := send_request_accepted (w.print (Out.creating (cstr path)))
    CMD_MKDIR path none 0 (by intro d h; cases h) (by rw [request_body_none]; exact hw)
  rw [hv]
  simp only [ne_eq, not_true_eq_false, if_false]
  rw [receive_response_ok v n BUFFER_SIZE tail (by omega) (hi.trans hinp) hle hsup]
  simp [World.print, hs]

theorem put_file_accepted (w : World) (path local_path contents : List Nat) (n : Nat)
    (tail : List Nat) (hnot : (cstr path).getLast? ≠ some 47)
    (hfile : w.files.lookup (cstr local_path) = some contents)
    (hfit : contents.length ≤ 4096) (hw : 7 + strlen path + contents.length ≤ w.wcap)
    (hinp : w.inp = response_header RESP_OK n ++ tail)
    (hle : n ≤ 4096) (hsup : n ≤ tail.length) :
    (client_put_file w path local_path).nulStores = w.nulStores ++ [n] := by
  rw [put_file_fits w path local_path contents hnot hfile hfit]
  simp only []
  obtain ⟨v, hv, hi, hs, -⟩ := send_request_accepted
    { w with fopens := w.fopens ++ [cstr local_path],
             stdout := w.stdout ++ [Out.putting (cstr local_path) (cstr path)] }
    CMD_PUT path (some contents) contents.length
    (by intro d h; cases h; exact Nat.le_refl _)
    (by simp only [request_body, List.take_length]; exact hw)
  rw [hv]
  simp only [ne_eq, not_true_eq_false, if_false]
  rw [receive_response_ok v n BUFFER_SIZE tail (by omega) (hi.trans hinp) hle hsup]
  simp [World.print, hs]

/-- C10, evaluated where it fails: an OK response that declares exactly 4096
bytes and delivers them is accepted by `receive_response`, and
`client_delete_file`, `client_create_directory` and `client_put_file` then store
the terminator at index 4096 of their 4096-byte buffer, which is not below
`BUFFER_SIZE`. -/
theorem terminator_index_at_capacity :
    (client_delete_file
      (World.start (response_header RESP_OK 4096 ++ List.replicate 4096 65) 100 [] 0)
      [47, 97]).nulStores = [4096] ∧
    (client_create_directory
      (World.start (response_header RESP_OK 4096 ++ List.replicate 4096 65) 100 [] 0)
      [47, 97]).nulStores = [4096] ∧
    (client_put_file
      (World.start (response_header RESP_OK 4096 ++ List.replicate 4096 65) 100
        [([102], [1, 2, 3])] 0)
      [47, 97] [102]).nulStores = [4096] ∧
    ¬ (4096 < BUFFER_SIZE) := by
  have hsup : 4096 ≤ (List.replicate 4096 65).length :=
    le_of_eq (List.length_replicate 4096 65).symm
  refine ⟨?_, ?_, ?_, by decide⟩
  · exact delete_file_accepted _ [47, 97] 4096 (List.replicate 4096 65) (by decide) rfl
      (Nat.le_refl _) hsup
  · exact create_directory_accepted _ [47, 97] 4096 (List.replicate 4096 65) (by decide) rfl
      (Nat.le_refl _) hsup
  · exact put_file_accepted _ [47, 97] [102] [1, 2, 3] 4096 (List.replicate 4096 65)
      (by decide) (by decide) (by decide) (by decide) rfl (Nat.le_refl _) hsup

/-! ## Paths beyond the 16-bit length field -/

theorem cstr_replicate (n : Nat) : cstr (List.replicate n 47) = List.replicate n 47 := by
  apply cstr_eq_self
  intro h
  have := (List.mem_replicate.mp h).2
  exact absurd this (by decide)

theorem strlen_replicate (n : Nat) : strlen (List.replicate n 47) = n := by
  unfold strlen
  rw [cstr_replicate, List.length_replicate]

/-- C5, as the code has it: a path longer than 65535 characters is not rejected.
On a connection that takes the request `send_request` returns 0, prints nothing,
and writes a frame whose two path-length bytes hold `strlen(path) mod 65536`,
which is not the length of the path, followed by all the characters of the path
and the payload. -/
theorem send_request_long_path (w : World) (command : Nat) (path : List Nat)
    (data : Option (List Nat)) (data_size : Nat)
    (hlong : 65535 < strlen path)
    (hlen : ∀ d, data = some d → data_size ≤ d.length)
    (hw : 7 + strlen path + (request_body data data_size).length ≤ w.wcap) :
    (send_request w command path data data_size).1 = 0 ∧
    (send_request w command path data data_size).2.stderr = w.stderr ∧
    (send_request w command path data data_size).2.out =
      w.out ++ ([command % 256, strlen path % 65536 / 256, strlen path % 256] ++
        htonl data_size ++ cstr path ++ request_body data data_size) ∧
    strlen path % 65536 / 256 * 256 + strlen path % 256 = strlen path % 65536 ∧
    strlen path % 65536 ≠ strlen path ∧
    (cstr path).length = strlen path := by
  rw [send_request_of_le w command path data data_size hlen hw]
  refine ⟨rfl, rfl, ?_, by omega, by omega, rfl⟩
  simp [request_header, htons]

/-- Witness for C5 as the code has it: a `LIST` of a path of 65536 slashes. -/
theorem send_request_long_path_witness :
    (send_request (World.start [] 70000 [] 0) CMD_LIST (List.replicate 65536 47) none 0).1
      = 0 :=
  (send_request_long_path (World.start [] 70000 [] 0) CMD_LIST (List.replicate 65536 47)
    none 0 (by rw [strlen_replicate]; decide) (by intro d h; cases h)
    (by rw [strlen_replicate, request_body_none]; decide)).1

/-- C5 refuted as stated: for a path of 65536 characters `send_request` returns
0 with no diagnostic and writes a frame, the header `01 00 00 00 00 00 00`
(path length field 0) followed by the 65536 path characters. -/
theorem long_path_is_framed :
    strlen (List.replicate 65536 47) = 65536 ∧
    send_request (World.start [] 70000 [] 0) CMD_LIST (List.replicate 65536 47) none 0 =
      (0, { World.start [] 70000 [] 0 with
              out := [1, 0, 0, 0, 0, 0, 0] ++ List.replicate 65536 47,
              wcap := 4457 }) := by
  refine ⟨strlen_replicate 65536, ?_⟩
  rw [send_request_of_le (World.start [] 70000 [] 0) CMD_LIST (List.replicate 65536 47)
    none 0 (by intro d h; cases h)
    (by rw [strlen_replicate, request_body_none]; decide)]
  rw [strlen_replicate, cstr_replicate, request_body_none, List.append_nil]
  have hh : request_header CMD_LIST 65536 0 = [1, 0, 0, 0, 0, 0, 0] := by decide
  rw [hh]
  rfl

/-! ## Directory listings -/

theorem print_rows_ok (fmt : RecordFormat) (buffer : List Nat) :
    ∀ (rows : List Nat) (w : World),
      (∀ i ∈ rows, fmt.time_ok (entry_at fmt.record_size buffer i) = true) →
      print_rows fmt buffer rows w =
        Run.returned
          { w with
            stdout := w.stdout ++
              (rows.map (fun i => Out.entry (entry_at fmt.record_size buffer i))) } := by
  intro rows
  induction rows with
  | nil =>
    intro w _
    simp [print_rows]
  | cons i rows ih =>
    intro w h
    unfold print_rows
    rw [if_pos (h i (List.mem_cons_self _ _))]
    rw [ih _ (fun j hj => h j (List.mem_cons_of_mem _ hj))]
    simp [World.print]

theorem list_directory_accepted (fmt : RecordFormat) (w : World) (path : List Nat) (n : Nat)
    (tail : List Nat) (hw : 7 + strlen path ≤ w.wcap)
    (hinp : w.inp = response_header RESP_OK n ++ tail)
    (hle : n ≤ 4096) (hsup : n ≤ tail.length)
    (htime : ∀ i, i < n / fmt.record_size →
      fmt.time_ok (entry_at fmt.record_size (tail.take n) i) = true) :
    ∃ v, client_list_directory fmt w path = Run.returned v ∧
      v.stdout =
        w.stdout ++ [Out.listing (cstr path), Out.dirContents (n / fmt.record_size)] ++
          (List.range (n / fmt.record_size)).map
            (fun i => Out.entry (entry_at fmt.record_size (tail.take n) i)) ∧
      v.inp = tail.drop n ∧ v.refused = w.refused := by
  unfold client_list_directory
  simp only []
  obtain ⟨v, hv, hi, -, hs, -, hr⟩ := send_request_accepted (w.print (Out.listing (cstr path)))
    CMD_LIST path none 0 (by intro d h; cases h) (by rw [request_body_none]; exact hw)
  rw [hv]
  simp only [ne_eq, not_true_eq_false, if_false]
  rw [receive_response_ok v n BUFFER_SIZE tail (by omega) (hi.trans hinp) hle hsup]
  simp only []
  rw [print_rows_ok fmt (tail.take n) _ _
    (fun i hi => htime i (List.mem_range.mp hi))]
  refine ⟨_, rfl, ?_, rfl, ?_⟩
  · simp [World.print, hs]
  · simp [World.print, hr]

theorem entry_at_take (record_size n i : Nat) (buffer : List Nat)
    (h : (i + 1) * record_size ≤ n) :
    entry_at record_size (buffer.take n) i = entry_at record_size buffer i := by
  unfold entry_at
  rw [List.drop_take, List.take_take]
  have : min record_size (n - i * record_size) = record_size := by
    rw [Nat.add_mul] at h
    omega
  rw [this]

theorem entry_at_replicate (record_size m i b : Nat) (h : (i + 1) * record_size ≤ m) :
    entry_at record_size (List.replicate m b) i = List.replicate record_size b := by
  unfold entry_at
  rw [List.drop_replicate, List.take_replicate]
  have : min record_size (m - i * record_size) = record_size := by
    rw [Nat.add_mul] at h
    omega
  rw [this]

theorem zero_record_time_ok : file_info_280.time_ok (List.replicate 280 0) = true := by
  show localtime_ok (le_signed (((List.replicate 280 0).drop 272).take 8)) = true
  rw [List.drop_replicate, List.take_replicate]
  decide

/-- A record of 280 bytes `0x41` holds a time that `localtime` rejects: the
listing of a payload of 281 such bytes ends the process in the row loop. -/
theorem bad_time_ends_listing :
    (client_list_directory file_info_280
      (World.start (response_header RESP_OK 281 ++ List.replicate 281 65) 100 [] 0)
      [47]).result = none := by
  unfold client_list_directory
  simp only []
  obtain ⟨v, hv, hi, -⟩ := send_request_accepted
    ((World.start (response_header RESP_OK 281 ++ List.replicate 281 65) 100 [] 0).print
      (Out.listing (cstr [47]))) CMD_LIST [47] none 0 (by intro d h; cases h) (by decide)
  rw [hv]
  simp only [ne_eq, not_true_eq_false, if_false]
  rw [receive_response_ok v 281 BUFFER_SIZE (List.replicate 281 65) (by decide)
    (hi.trans rfl) (by decide) (le_of_eq (List.length_replicate 281 65).symm)]
  simp only []
  have h1 : (281 : Nat) / file_info_280.record_size = 1 := by decide
  have h2 : List.range 1 = [0] := rfl
  have h3 : file_info_280.record_size = 280 := rfl
  rw [h1, h2]
  unfold print_rows
  rw [h3, List.take_replicate,
    entry_at_replicate 280 (min 281 281) 0 65 (by decide)]
  have hbad : file_info_280.time_ok (List.replicate 280 65) = false := by
    show localtime_ok (le_signed (((List.replicate 280 65).drop 272).take 8)) = false
    rw [List.drop_replicate, List.take_replicate]
    decide
  rw [hbad]
  rfl

/-- C6, as the code has it: when the request is sent and an OK response declaring
`n ≤ 4096` bytes delivers them, `client_list_directory` announces
`n / record_size` entries, rounded down, and, `localtime` accepting the time of
each of them, prints that many rows and returns; row `i` is read from the
`i`-th run of `record_size` payload bytes, so from the first
`n / record_size * record_size` bytes only, whatever `n % record_size` is; an
empty payload gives no row. -/
theorem list_directory_entry_count (fmt : RecordFormat) (w : World) (path : List Nat)
    (n : Nat) (tail : List Nat) (hw : 7 + strlen path ≤ w.wcap)
    (hinp : w.inp = response_header RESP_OK n ++ tail)
    (hle : n ≤ 4096) (hsup : n ≤ tail.length)
    (htime : ∀ i, i < n / fmt.record_size →
      fmt.time_ok (entry_at fmt.record_size (tail.take n) i) = true) :
    (client_list_directory fmt w path).result.map World.stdout =
      some (w.stdout ++ [Out.listing (cstr path), Out.dirContents (n / fmt.record_size)] ++
        (List.range (n / fmt.record_size)).map
          (fun i => Out.entry (entry_at fmt.record_size (tail.take n) i))) ∧
    (∀ i, i < n / fmt.record_size →
      entry_at fmt.record_size (tail.take n) i =
        entry_at fmt.record_size (tail.take (n / fmt.record_size * fmt.record_size)) i) ∧
    (n = 0 → (client_list_directory fmt w path).result.map World.stdout =
      some (w.stdout ++ [Out.listing (cstr path), Out.dirContents 0])) := by
  obtain ⟨v, hv, hout, -, -⟩ :=
    list_directory_accepted fmt w path n tail hw hinp hle hsup htime
  have hmain : (client_list_directory fmt w path).result.map World.stdout =
      some (w.stdout ++ [Out.listing (cstr path), Out.dirContents (n / fmt.record_size)] ++
        (List.range (n / fmt.record_size)).map
          (fun i => Out.entry (entry_at fmt.record_size (tail.take n) i))) := by
    rw [hv]
    simp only [Run.result, Option.map_some']
    rw [hout]
  refine ⟨hmain, ?_, ?_⟩
  · intro i hi
    have h1 : (i + 1) * fmt.record_size ≤ n / fmt.record_size * fmt.record_size :=
      Nat.mul_le_mul_right _ hi
    have h2 : n / fmt.record_size * fmt.record_size ≤ n := Nat.div_mul_le_self _ _
    rw [entry_at_take _ _ _ _ (Nat.le_trans h1 h2), entry_at_take _ _ _ _ h1]
  · intro h0
    rw [hmain]
    subst h0
    simp

/-- Witness for C6 as the code has it: a listing of `/` answered with two
all-zero 280-byte records and one more byte. -/
theorem list_directory_entry_count_witness :
    (client_list_directory file_info_280
      (World.start (response_header RESP_OK 561 ++ List.replicate 561 0) 100 [] 0)
      [47]).result.map World.stdout =
      some [Out.listing [47], Out.dirContents 2, Out.entry (List.replicate 280 0),
        Out.entry (List.replicate 280 0)] := by
  have hrec : ∀ i, i < 2 →
      entry_at 280 ((List.replicate 561 0).take 561) i = List.replicate 280 0 := by
    intro i hi
    rw [List.take_replicate,
      entry_at_replicate 280 (min 561 561) i 0 (by simp only [Nat.min_self]; omega)]
  have h := (list_directory_entry_count file_info_280
    (World.start (response_header RESP_OK 561 ++ List.replicate 561 0) 100 [] 0)
    [47] 561 (List.replicate 561 0) (by decide) rfl (by decide)
    (le_of_eq (List.length_replicate 561 0).symm)
    (by
      intro i hi
      show file_info_280.time_ok (entry_at 280 ((List.replicate 561 0).take 561) i) = true
      rw [hrec i hi]
      exact zero_record_time_ok)).1
  rw [h]
  have h1 : (561 : Nat) / file_info_280.record_size = 2 := by decide
  have h2 : List.range 2 = [0, 1] := rfl
  have h3 : file_info_280.record_size = 280 := rfl
  rw [h1, h2, h3]
  simp only [List.map_cons, List.map_nil]
  rw [hrec 0 (by decide), hrec 1 (by decide)]
  rfl

/-- C6 refuted as stated: with 280-byte records, an OK response carrying one
all-zero record (empty name, size 0, time 0) and one more byte, 281 bytes in
all, is accepted and listed as one entry, although 281 is not a multiple of
280. -/
theorem listing_with_trailing_bytes :
    (receive_response
      (send_request ((World.start (response_header RESP_OK 281 ++ List.replicate 281 0)
        100 [] 0).print (Out.listing [47])) CMD_LIST [47] none 0).2 BUFFER_SIZE).rc = 0 ∧
    (client_list_directory file_info_280
      (World.start (response_header RESP_OK 281 ++ List.replicate 281 0) 100 [] 0)
      [47]).result.map World.stdout =
      some [Out.listing [47], Out.dirContents 1, Out.entry (List.replicate 280 0)] ∧
    281 % 280 ≠ 0 := by
  have hsup : 281 ≤ (List.replicate 281 0).length :=
    le_of_eq (List.length_replicate 281 0).symm
  have hrec : ∀ i, i < 281 / 280 →
      entry_at 280 ((List.replicate 281 0).take 281) i = List.replicate 280 0 := by
    intro i hi
    have hi2 : i < 1 := hi
    rw [List.take_replicate,
      entry_at_replicate 280 (min 281 281) i 0 (by simp only [Nat.min_self]; omega)]
  refine ⟨?_, ?_, by decide⟩
  · obtain ⟨v, hv, hi, -⟩ := send_request_accepted
      ((World.start (response_header RESP_OK 281 ++ List.replicate 281 0) 100 [] 0).print
        (Out.listing [47])) CMD_LIST [47] none 0 (by intro d h; cases h) (by decide)
    rw [hv]
    rw [receive_response_ok v 281 BUFFER_SIZE (List.replicate 281 0) (by decide)
      (hi.trans rfl) (by decide) hsup]
  · obtain ⟨v, hv, hout, -, -⟩ := list_directory_accepted file_info_280
      (World.start (response_header RESP_OK 281 ++ List.replicate 281 0) 100 [] 0)
      [47] 281 (List.replicate 281 0) (by decide) rfl (by decide) hsup
      (by
        intro i hi
        show file_info_280.time_ok (entry_at 280 ((List.replicate 281 0).take 281) i) = true
        rw [hrec i hi]
        exact zero_record_time_ok)
    rw [hv]
    simp only [Run.result, Option.map_some']
    rw [hout]
    have h1 : (281 : Nat) / file_info_280.record_size = 1 := by decide
    have h2 : List.range 1 = [0] := rfl
    have h3 : file_info_280.record_size = 280 := rfl
    rw [h1, h2, h3]
    simp only [List.map_cons, List.map_nil]
    rw [hrec 0 (by decide)]
    rfl

/-! ## Exit code -/

/-- A connection that takes the seven header bytes and then refuses the path:
`main` does not return when the refusal raises `SIGPIPE`, and returns 0 when
it is another write error. -/
theorem refused_write_ends_main :
    (main file_info_280 (World.start [] 7 [] 0) [[99], word_delete, [47, 97]]).result = none ∧
    exit_code (main file_info_280 { World.start [] 7 [] 0 with epipe := false }
      [[99], word_delete, [47, 97]]) = some 0 := by
  constructor <;> decide

theorem receive_response_refused (w : World) (bs : Nat) :
    (receive_response w bs).world.refused = w.refused := by
  rw [receive_response_preserves]

theorem unless_sigpipe_returned (before after : World) (h : after.refused = before.refused) :
    unless_sigpipe before after = Run.returned after := by
  unfold unless_sigpipe sigpipe_since
  rw [h]
  simp

theorem fopen_wb_refused (w : World) (name : List Nat) :
    (fopen_wb w name).2.refused = w.refused := by
  unfold fopen_wb
  simp only []
  split <;> rfl

theorem fwrite_refused (w : World) (name bytes : List Nat) :
    (fwrite w name bytes).2.refused = w.refused := rfl

theorem get_file_refused (w : World) (path local_path : List Nat)
    (hw : 7 + strlen path ≤ w.wcap) :
    (client_get_file w path local_path).refused = w.refused := by
  unfold client_get_file
  simp only []
  obtain ⟨v, hv, -, -, -, -, hr⟩ := send_request_accepted
    (w.print (Out.getting (cstr path) (cstr local_path)))
    CMD_GET path none 0 (by intro d h; cases h) (by rw [request_body_none]; exact hw)
  rw [hv]
  simp only [ne_eq, not_true_eq_false, if_false]
  have hrr := receive_response_refused v BUFFER_SIZE
  have hr2 : v.refused = w.refused := hr
  split
  · rw [hrr, hr2]
  · have hf := fopen_wb_refused (receive_response v BUFFER_SIZE).world local_path
    generalize fopen_wb (receive_response v BUFFER_SIZE).world local_path = fo at hf
    obtain ⟨b, w2⟩ := fo
    simp only [] at hf
    cases b
    · simp only [World.err]
      rw [hf, hrr, hr2]
    · simp only []
      have hfw := fwrite_refused w2 local_path
        ((receive_response v BUFFER_SIZE).buffer.take (receive_response v BUFFER_SIZE).data_size)
      generalize fwrite w2 local_path
        ((receive_response v BUFFER_SIZE).buffer.take
          (receive_response v BUFFER_SIZE).data_size) = fw at hfw
      obtain ⟨k, w3⟩ := fw
      simp only [] at hfw
      split
      · simp only [World.err]
        rw [hfw, hf, hrr, hr2]
      · simp only [World.print]
        rw [hfw, hf, hrr, hr2]

theorem put_file_refused (w : World) (path local_path contents : List Nat)
    (hnot : (cstr path).getLast? ≠ some 47)
    (hfile : w.files.lookup (cstr local_path) = some contents)
    (hfit : contents.length ≤ 4096) (hw : 7 + strlen path + contents.length ≤ w.wcap) :
    (client_put_file w path local_path).refused = w.refused := by
  rw [put_file_fits w path local_path contents hnot hfile hfit]
  simp only []
  obtain ⟨v, hv, -, -, -, -, hr⟩ := send_request_accepted
    { w with fopens := w.fopens ++ [cstr local_path],
             stdout := w.stdout ++ [Out.putting (cstr local_path) (cstr path)] }
    CMD_PUT path (some contents) contents.length
    (by intro d h; cases h; exact Nat.le_refl _)
    (by simp only [request_body, List.take_length]; exact hw)
  rw [hv]
  simp only [ne_eq, not_true_eq_false, if_false]
  have hrr := receive_response_refused v BUFFER_SIZE
  split
  · rw [hrr, hr]
  · simp only [World.print]
    rw [hrr, hr]

theorem delete_file_refused (w : World) (path : List Nat) (hw : 7 + strlen path ≤ w.wcap) :
    (client_delete_file w path).refused = w.refused := by
  unfold client_delete_file
  simp only []
  obtain ⟨v, hv, -, -, -, -, hr⟩ := send_request_accepted (w.print (Out.deleting (cstr path)))
    CMD_DELETE path none 0 (by intro d h; cases h) (by rw [request_body_none]; exact hw)
  rw [hv]
  simp only [ne_eq, not_true_eq_false, if_false]
  have hrr := receive_response_refused v BUFFER_SIZE
  split
  · rw [hrr, hr]
    rfl
  · simp only [World.print]
    rw [hrr, hr]
    rfl

theorem create_directory_refused (w : World) (path : List Nat)
    (hw : 7 + strlen path ≤ w.wcap) :
    (client_create_directory w path).refused = w.refused := by
  unfold client_create_directory
  simp only []
  obtain ⟨v, hv, -, -, -, -, hr⟩ := send_request_accepted (w.print (Out.creating (cstr path)))
    CMD_MKDIR path none 0 (by intro d h; cases h) (by rw [request_body_none]; exact hw)
  rw [hv]
  simp only [ne_eq, not_true_eq_false, if_false]
  have hrr := receive_response_refused v BUFFER_SIZE
  split
  · rw [hrr, hr]
    rfl
  · simp only [World.print]
    rw [hrr, hr]
    rfl

theorem streq_other (c a b : List Nat) (h : streq c a = true) (hne : cstr a ≠ cstr b) :
    streq c b = false := by
  unfold streq at h ⊢
  have e : cstr c = cstr a := by simpa using h
  rw [e]
  simpa using hne

theorem main_without_command (fmt : RecordFormat) (w : World) (argv : List (List Nat))
    (h : argv.length ≤ command_index argv) :
    main fmt w argv = Run.returned (1, w.print (Out.usage argv.head?)) := by
  unfold main
  unfold command_index at h
  simp only []
  generalize parse_options (argv.drop 1) 1 DEFAULT_HOST DEFAULT_PORT = po at h
  obtain ⟨i, host, port⟩ := po
  simp only [] at h ⊢
  rw [if_pos h]

theorem main_not_connected (fmt : RecordFormat) (w : World) (argv : List (List Nat))
    (h : command_index argv < argv.length)
    (hc : w.sockOk = false ∨ w.hostOk = false ∨ w.connOk = false) :
    exit_code (main fmt w argv) = some 1 := by
  unfold main
  unfold command_index at h
  simp only []
  generalize parse_options (argv.drop 1) 1 DEFAULT_HOST DEFAULT_PORT = po at h
  obtain ⟨i, host, port⟩ := po
  simp only [] at h ⊢
  rw [if_neg (by omega)]
  unfold connect_to_server
  cases h1 : w.sockOk <;> cases h3 : w.hostOk <;> cases h4 : w.connOk <;>
    simp_all [exit_code, Run.result]

theorem main_connected (fmt : RecordFormat) (w : World) (argv : List (List Nat))
    (h : command_index argv < argv.length)
    (hs : w.sockOk = true) (hh : w.hostOk = true) (hk : w.connOk = true) :
    ∃ p, main fmt w argv =
      match dispatch fmt { w with peer := p } argv (command_word argv)
          (command_index argv + 1) with
      | Run.killed sig => Run.killed sig
      | Run.returned v => Run.returned (0, { v with closed := true }) := by
  unfold main command_word
  unfold command_index at h ⊢
  simp only []
  generalize parse_options (argv.drop 1) 1 DEFAULT_HOST DEFAULT_PORT = po at h
  obtain ⟨i, host, port⟩ := po
  simp only [] at h ⊢
  rw [if_neg (by omega)]
  refine ⟨some (cstr host, (port % 65536).toNat), ?_⟩
  unfold connect_to_server
  simp [hs, hh, hk]

theorem exit_code_connected (fmt : RecordFormat) (w : World) (argv : List (List Nat))
    (h : command_index argv < argv.length)
    (hs : w.sockOk = true) (hh : w.hostOk = true) (hk : w.connOk = true)
    (hd : ∀ p, ∃ v, dispatch fmt { w with peer := p } argv (command_word argv)
      (command_index argv + 1) = Run.returned v) :
    exit_code (main fmt w argv) = some 0 := by
  obtain ⟨p, hp⟩ := main_connected fmt w argv h hs hh hk
  obtain ⟨v, hv⟩ := hd p
  rw [hp, hv]
  rfl

theorem dispatch_unknown (fmt : RecordFormat) (w : World) (argv : List (List Nat))
    (c : List Nat) (i : Nat) (h : is_command c = false) :
    ∃ v, dispatch fmt w argv c i = Run.returned v := by
  unfold is_command at h
  simp only [Bool.or_eq_false_iff] at h
  obtain ⟨⟨⟨⟨h1, h2⟩, h3⟩, h4⟩, h5⟩ := h
  unfold dispatch
  simp only [h1, h2, h3, h4, h5, Bool.false_eq_true, if_false]
  exact ⟨_, rfl⟩

theorem dispatch_two_missing (fmt : RecordFormat) (w : World) (argv : List (List Nat))
    (c : List Nat) (i : Nat)
    (h : streq c word_get = true ∨ streq c word_put = true)
    (hi : ¬ (i + 1 < argv.length)) :
    ∃ v, dispatch fmt w argv c i = Run.returned v := by
  unfold dispatch
  rcases h with h | h
  · have h1 := streq_other c word_get word_list h (by decide)
    simp only [h1, h, hi, Bool.false_eq_true, if_false, if_true]
    exact ⟨_, rfl⟩
  · have h1 := streq_other c word_put word_list h (by decide)
    have h2 := streq_other c word_put word_get h (by decide)
    simp only [h1, h2, h, hi, Bool.false_eq_true, if_false, if_true]
    exact ⟨_, rfl⟩

theorem dispatch_one_missing (fmt : RecordFormat) (w : World) (argv : List (List Nat))
    (c : List Nat) (i : Nat)
    (h : streq c word_delete = true ∨ streq c word_mkdir = true)
    (hi : ¬ (i < argv.length)) :
    ∃ v, dispatch fmt w argv c i = Run.returned v := by
  unfold dispatch
  rcases h with h | h
  · have h1 := streq_other c word_delete word_list h (by decide)
    have h2 := streq_other c word_delete word_get h (by decide)
    have h3 := streq_other c word_delete word_put h (by decide)
    simp only [h1, h2, h3, h, hi, Bool.false_eq_true, if_false, if_true]
    exact ⟨_, rfl⟩
  · have h1 := streq_other c word_mkdir word_list h (by decide)
    have h2 := streq_other c word_mkdir word_get h (by decide)
    have h3 := streq_other c word_mkdir word_put h (by decide)
    have h4 := streq_other c word_mkdir word_delete h (by decide)
    simp only [h1, h2, h3, h4, h, hi, Bool.false_eq_true, if_false, if_true]
    exact ⟨_, rfl⟩

theorem dispatch_list (fmt : RecordFormat) (w : World) (argv : List (List Nat))
    (c : List Nat) (i : Nat) (h : streq c word_list = true) :
    dispatch fmt w argv c i =
      client_list_directory fmt w (if i < argv.length then argv.getD i [] else root_path) := by
  unfold dispatch
  simp only [h, if_true]
  split <;> rfl

theorem dispatch_get (fmt : RecordFormat) (w : World) (argv : List (List Nat))
    (c : List Nat) (i : Nat) (h : streq c word_get = true) (hi : i + 1 < argv.length)
    (hw : 7 + strlen (argv.getD i []) ≤ w.wcap) :
    ∃ v, dispatch fmt w argv c i = Run.returned v := by
  unfold dispatch
  have h1 := streq_other c word_get word_list h (by decide)
  simp only [h1, h, hi, Bool.false_eq_true, if_false, if_true]
  exact ⟨_, unless_sigpipe_returned _ _ (get_file_refused w _ _ hw)⟩

theorem dispatch_put (fmt : RecordFormat) (w : World) (argv : List (List Nat))
    (c : List Nat) (i : Nat) (contents : List Nat)
    (h : streq c word_put = true) (hi : i + 1 < argv.length)
    (hnot : (cstr (argv.getD i [])).getLast? ≠ some 47)
    (hfile : w.files.lookup (cstr (argv.getD (i + 1) [])) = some contents)
    (hfit : contents.length ≤ 4096)
    (hw : 7 + strlen (argv.getD i []) + contents.length ≤ w.wcap) :
    ∃ v, dispatch fmt w argv c i = Run.returned v := by
  unfold dispatch
  have h1 := streq_other c word_put word_list h (by decide)
  have h2 := streq_other c word_put word_get h (by decide)
  simp only [h1, h2, h, hi, Bool.false_eq_true, if_false, if_true]
  exact ⟨_, unless_sigpipe_returned _ _ (put_file_refused w _ _ contents hnot hfile hfit hw)⟩

theorem dispatch_delete (fmt : RecordFormat) (w : World) (argv : List (List Nat))
    (c : List Nat) (i : Nat) (h : streq c word_delete = true) (hi : i < argv.length)
    (hw : 7 + strlen (argv.getD i []) ≤ w.wcap) :
    ∃ v, dispatch fmt w argv c i = Run.returned v := by
  unfold dispatch
  have h1 := streq_other c word_delete word_list h (by decide)
  have h2 := streq_other c word_delete word_get h (by decide)
  have h3 := streq_other c word_delete word_put h (by decide)
  simp only [h1, h2, h3, h, hi, Bool.false_eq_true, if_false, if_true]
  exact ⟨_, unless_sigpipe_returned _ _ (delete_file_refused w _ hw)⟩

theorem dispatch_mkdir (fmt : RecordFormat) (w : World) (argv : List (List Nat))
    (c : List Nat) (i : Nat) (h : streq c word_mkdir = true) (hi : i < argv.length)
    (hw : 7 + strlen (argv.getD i []) ≤ w.wcap) :
    ∃ v, dispatch fmt w argv c i = Run.returned v := by
  unfold dispatch
  have h1 := streq_other c word_mkdir word_list h (by decide)
  have h2 := streq_other c word_mkdir word_get h (by decide)
  have h3 := streq_other c word_mkdir word_put h (by decide)
  have h4 := streq_other c word_mkdir word_delete h (by decide)
  simp only [h1, h2, h3, h4, h, hi, Bool.false_eq_true, if_false, if_true]
  exact ⟨_, unless_sigpipe_returned _ _ (create_directory_refused w _ hw)⟩

theorem parse_options_index (k : Nat) : ∀ (l : List (List Nat)), l.length ≤ k →
    ∀ (i : Nat) (h : List Nat) (p : Int) (h2 : List Nat) (p2 : Int),
    (parse_options l i h p).1 = i + (parse_options l 0 h2 p2).1 := by
  induction k with
  | zero =>
    intro l hl i h p h2 p2
    have : l = [] := List.length_eq_zero.mp (by omega)
    subst this
    simp [parse_options]
  | succ k ih =>
    intro l hl i h p h2 p2
    match l with
    | [] => simp [parse_options]
    | [a] =>
      unfold parse_options
      split
      · simp
      · split <;> simp
    | a :: v :: rest =>
      have hr : rest.length ≤ k := by
        simp only [List.length_cons] at hl
        omega
      unfold parse_options
      split
      · simp only []
        rw [ih rest hr (i + 2) v p h2 p2, ih rest hr (0 + 2) v p2 h2 p2]
        omega
      · split
        · simp only []
          rw [ih rest hr (i + 2) h (atoi v) h2 p2, ih rest hr (0 + 2) h2 (atoi v) h2 p2]
          omega
        · simp

theorem command_index_single (prog : List Nat) : command_index [prog] = 1 := rfl

theorem command_index_command (prog cmd : List Nat) (args : List (List Nat))
    (h : is_option cmd = false) : command_index (prog :: cmd :: args) = 1 := by
  unfold is_option at h
  simp only [Bool.or_eq_false_iff] at h
  obtain ⟨⟨⟨h1, h2⟩, h3⟩, h4⟩ := h
  unfold command_index
  simp only [List.drop_one, List.tail_cons]
  unfold parse_options
  simp [h1, h2, h3, h4]

theorem command_index_flag (prog flag : List Nat) (h : is_option flag = true) :
    command_index [prog, flag] = 2 := by
  unfold is_option at h
  unfold command_index
  simp only [List.drop_one, List.tail_cons]
  unfold parse_options
  by_cases c : (streq flag opt_h || streq flag opt_host) = true
  · simp [c]
  · have c2 : (streq flag opt_p || streq flag opt_port) = true := by
      simp only [Bool.or_eq_true] at h c ⊢
      tauto
    simp [c, c2]

theorem command_index_option (prog flag value : List Nat) (rest : List (List Nat))
    (h : is_option flag = true) :
    command_index (prog :: flag :: value :: rest) = command_index (prog :: rest) + 2 := by
  unfold is_option at h
  unfold command_index
  simp only [List.drop_one, List.tail_cons]
  conv_lhs => unfold parse_options
  by_cases c : (streq flag opt_h || streq flag opt_host) = true
  · simp only [c, if_true]
    rw [parse_options_index rest.length rest (Nat.le_refl _) (1 + 2) value DEFAULT_PORT
        DEFAULT_HOST DEFAULT_PORT,
      parse_options_index rest.length rest (Nat.le_refl _) 1 DEFAULT_HOST DEFAULT_PORT
        DEFAULT_HOST DEFAULT_PORT]
    omega
  · have c2 : (streq flag opt_p || streq flag opt_port) = true := by
      simp only [Bool.or_eq_true] at h c ⊢
      tauto
    simp only [c, c2, if_true]
    rw [if_neg (by decide)]
    rw [parse_options_index rest.length rest (Nat.le_refl _) (1 + 2) DEFAULT_HOST (atoi value)
        DEFAULT_HOST DEFAULT_PORT,
      parse_options_index rest.length rest (Nat.le_refl _) 1 DEFAULT_HOST DEFAULT_PORT
        DEFAULT_HOST DEFAULT_PORT]
    omega

/-- C8, as the code has it: `main` returns 1 when the option loop uses up the
arguments without reaching a command word (the usage-only invocation) and when
the connection cannot be set up.  With the connection set up it returns 0 when
the command word is unknown, when `get` or `put` lacks one of its two paths or
`delete` or `mkdir` its path, and when the command succeeds: its request is
taken by the connection and answered by an OK response that fits the buffer
(with room for the terminator where one is stored), the local file of `get`
can be written, that of `put` read, and `localtime` accepts the listed times.
The command word is `argv[1]` when that is no option flag, and each flag with
its value moves it two places on. -/
theorem main_exit_code (fmt : RecordFormat) (w : World) (argv : List (List Nat)) :
    (argv.length ≤ command_index argv →
      main fmt w argv = Run.returned (1, w.print (Out.usage argv.head?))) ∧
    (command_index argv < argv.length →
      (w.sockOk = false ∨ w.hostOk = false ∨ w.connOk = false) →
      exit_code (main fmt w argv) = some 1) ∧
    (command_index argv < argv.length → w.sockOk = true → w.hostOk = true →
      w.connOk = true →
      (is_command (command_word argv) = false → exit_code (main fmt w argv) = some 0) ∧
      ((streq (command_word argv) word_get = true ∨
          streq (command_word argv) word_put = true) →
        argument_count argv < 2 → exit_code (main fmt w argv) = some 0) ∧
      ((streq (command_word argv) word_delete = true ∨
          streq (command_word argv) word_mkdir = true) →
        argument_count argv = 0 → exit_code (main fmt w argv) = some 0) ∧
      (streq (command_word argv) word_list = true →
        ∀ path n tail,
          path = (if 0 < argument_count argv then argument argv 0 else root_path) →
          7 + strlen path ≤ w.wcap → w.inp = response_header RESP_OK n ++ tail →
          n ≤ 4096 → n ≤ tail.length →
          (∀ i, i < n / fmt.record_size →
            fmt.time_ok (entry_at fmt.record_size (tail.take n) i) = true) →
          exit_code (main fmt w argv) = some 0) ∧
      (streq (command_word argv) word_get = true → 2 ≤ argument_count argv →
        ∀ n tail,
          7 + strlen (argument argv 0) ≤ w.wcap →
          w.inp = response_header RESP_OK n ++ tail → n ≤ 4096 → n ≤ tail.length →
          cstr (argument argv 1) ∉ w.locked → n ≤ w.quota →
          exit_code (main fmt w argv) = some 0) ∧
      (streq (command_word argv) word_put = true → 2 ≤ argument_count argv →
        ∀ contents n tail,
          (cstr (argument argv 0)).getLast? ≠ some 47 →
          w.files.lookup (cstr (argument argv 1)) = some contents →
          contents.length ≤ 4096 →
          7 + strlen (argument argv 0) + contents.length ≤ w.wcap →
          w.inp = response_header RESP_OK n ++ tail → n < 4096 → n ≤ tail.length →
          exit_code (main fmt w argv) = some 0) ∧
      ((streq (command_word argv) word_delete = true ∨
          streq (command_word argv) word_mkdir = true) →
        1 ≤ argument_count argv →
        ∀ n tail,
          7 + strlen (argument argv 0) ≤ w.wcap →
          w.inp = response_header RESP_OK n ++ tail → n < 4096 → n ≤ tail.length →
          exit_code (main fmt w argv) = some 0)) ∧
    (∀ prog, argv = [prog] → command_index argv = 1) ∧
    (∀ prog cmd args, argv = prog :: cmd :: args → is_option cmd = false →
      command_index argv = 1) ∧
    (∀ prog flag, argv = [prog, flag] → is_option flag = true → command_index argv = 2) ∧
    (∀ prog flag value rest, argv = prog :: flag :: value :: rest → is_option flag = true →
      command_index argv = command_index (prog :: rest) + 2) := by
  refine ⟨main_without_command fmt w argv, main_not_connected fmt w argv, ?_, ?_, ?_, ?_, ?_⟩
  · intro hc hs hh hk
    have hex := exit_code_connected fmt w argv hc hs hh hk
    refine ⟨?_, ?_, ?_, ?_, ?_, ?_, ?_⟩
    · intro h
      exact hex (fun p => dispatch_unknown fmt _ argv _ _ h)
    · intro h hn
      exact hex (fun p => dispatch_two_missing fmt _ argv _ _ h
        (by unfold argument_count at hn; omega))
    · intro h hn
      exact hex (fun p => dispatch_one_missing fmt _ argv _ _ h
        (by unfold argument_count at hn; omega))
    · intro h path n tail hpath hw hinp hle hsup htime
      apply hex
      intro p
      rw [dispatch_list fmt _ argv _ _ h]
      have hp : (if command_index argv + 1 < argv.length
          then argv.getD (command_index argv + 1) [] else root_path) = path := by
        rw [hpath]
        unfold argument_count argument
        by_cases hlt : command_index argv + 1 < argv.length
        · rw [if_pos hlt, if_pos (by omega)]
        · rw [if_neg hlt, if_neg (by omega)]
      rw [hp]
      obtain ⟨v, hv, -⟩ := list_directory_accepted fmt { w with peer := p } path n tail
        hw hinp hle hsup htime
      exact ⟨v, hv⟩
    · intro h hn n tail hw _ _ _ _ _
      exact hex (fun p => dispatch_get fmt _ argv _ _ h
        (by unfold argument_count at hn; omega) hw)
    · intro h hn contents n tail hnot hfile hfit hw _ _ _
      exact hex (fun p => dispatch_put fmt _ argv _ _ contents h
        (by unfold argument_count at hn; omega) hnot hfile hfit hw)
    · intro h hn n tail hw _ _ _
      rcases h with h | h
      · exact hex (fun p => dispatch_delete fmt _ argv _ _ h
          (by unfold argument_count at hn; omega) hw)
      · exact hex (fun p => dispatch_mkdir fmt _ argv _ _ h
          (by unfold argument_count at hn; omega) hw)
  · intro prog e
    rw [e]
    rfl
  · intro prog cmd args e ho
    rw [e]
    exact command_index_command prog cmd args ho
  · intro prog flag e ho
    rw [e]
    exact command_index_flag prog flag ho
  · intro prog flag value rest e ho
    rw [e]
    exact command_index_option prog flag value rest ho

/-- Witness for C8 as the code has it: `client -p 12 put /a f` with a reachable
server that takes the request and answers OK returns 0. -/
theorem main_exit_code_witness :
    exit_code (main file_info_280
      (World.start (response_header RESP_OK 2 ++ [111, 107]) 100 [([102], [1, 2, 3])] 0)
      [[99], opt_p, [49, 50], word_put, [47, 97], [102]]) = some 0 :=
  ((main_exit_code file_info_280
      (World.start (response_header RESP_OK 2 ++ [111, 107]) 100 [([102], [1, 2, 3])] 0)
      [[99], opt_p, [49, 50], word_put, [47, 97], [102]]).2.2.1
    (by decide) rfl rfl rfl).2.2.2.2.2.1 (by decide) (by decide) [1, 2, 3] 2 [111, 107]
    (by decide) (by decide) (by decide) (by decide) rfl (by decide) (by decide)

/-- C8 refuted as stated: with a reachable server, the invocation without a
command word returns 1, not 0, and the invocations with the unknown command
word `x` and with `get` lacking its two paths return 0, not 1. -/
theorem exit_code_of_usage_and_bad_arguments :
    exit_code (main file_info_280 (World.start [] 100 [] 0) [[99]]) = some 1 ∧
    (main file_info_280 (World.start [] 100 [] 0) [[99]]).result.map
      (fun r => r.2.stdout) = some [Out.usage (some [99])] ∧
    exit_code (main file_info_280 (World.start [] 100 [] 0) [[99], [120]]) = some 0 ∧
    (main file_info_280 (World.start [] 100 [] 0) [[99], [120]]).result.map
      (fun r => r.2.stderr) = some [Diag.unknownCommand [120]] ∧
    exit_code (main file_info_280 (World.start [] 100 [] 0) [[99], word_get]) = some 0 ∧
    (main file_info_280 (World.start [] 100 [] 0) [[99], word_get]).result.map
      (fun r => r.2.stderr) = some [Diag.getRequires] := by
  refine ⟨?_, ?_, ?_, ?_, ?_, ?_⟩ <;> decide

end Cileserver
